import Mathlib

/-!
Shallow embedding of the Jewish calendar library (src/jewish/date.py) and
verification of its specification properties.

Python integers are modelled as `Int`.  Python floor division `//` and the
modulo operator `%` on a positive divisor coincide with Lean's `Int` division
and `Int` modulo (`Int.ediv` / `Int.emod`), which are used throughout.
Fallible operations (those that can raise `InvalidDateError`) return `Except`.
-/

namespace Jewish

def HALAKIM_PER_HOUR : Int := 1080

def HALAKIM_PER_DAY : Int := 25920

def HALAKIM_PER_LUNAR_CYCLE : Int := 29 * HALAKIM_PER_DAY + 13753

def HALAKIM_PER_METONIC_CYCLE : Int := HALAKIM_PER_LUNAR_CYCLE * (12 * 19 + 7)

def GREGORIAN_SDN_OFFSET : Int := 1721425

def JEWISH_SDN_OFFSET : Int := 347997

def NEW_MOON_OF_CREATION : Int := 31524

def SUNDAY : Int := 0

def MONDAY : Int := 1

def TUESDAY : Int := 2

def WEDNESDAY : Int := 3

def FRIDAY : Int := 5

def NOON : Int := 18 * HALAKIM_PER_HOUR

def AM3_11_20 : Int := 9 * HALAKIM_PER_HOUR + 204

def AM9_32_43 : Int := 15 * HALAKIM_PER_HOUR + 589

def LEAP_YEARS : List Int := [2, 5, 7, 10, 13, 16, 18]

def YEAR_OFFSET : List Int :=
  [0, 12, 24, 37, 49, 61, 74, 86, 99, 111, 123, 136, 148, 160, 173, 185, 197, 210, 222]

/-- Errors raised by the library: `invalidDate` models `InvalidDateError`;
`nameAccessError` models the Python `NameError` that would occur if the
month-resolution loop in `from_sdn` fell through without assigning `day`. -/
inductive DateError where
  | invalidDate : DateError
  | nameAccessError : DateError
deriving DecidableEq

deriving instance DecidableEq for Except

/-- Transcription of `months_in_metonic_year`. -/
def months_in_metonic_year (year : Int) : Int :=
  if LEAP_YEARS.contains year then 13 else 12

/-- Transcription of `metonic_year`. -/
def metonic_year (year : Int) : Int :=
  (year - 1) % 19

/-- Transcription of `is_leap_year`. -/
def is_leap_year (year : Int) : Bool :=
  LEAP_YEARS.contains (metonic_year year)

/-- The `_Molad` accumulator: a moment in time as whole days plus halakim. -/
structure Molad where
  day : Int
  halakim : Int
deriving DecidableEq

/-- Transcription of `_Molad._fix`. -/
def Molad.fix (m : Molad) : Molad :=
  { day := m.day + m.halakim / HALAKIM_PER_DAY, halakim := m.halakim % HALAKIM_PER_DAY }

/-- The `_Molad` constructor applies `_fix` to its arguments. -/
def Molad.init (day halakim : Int) : Molad :=
  Molad.fix { day := day, halakim := halakim }

/-- Transcription of `_Molad._add_halakim`. -/
def Molad.add_halakim (m : Molad) (h : Int) : Molad :=
  Molad.fix { day := m.day, halakim := m.halakim + h }

/-- Transcription of `_Molad.add_lunar_cycles`. -/
def Molad.add_lunar_cycles (m : Molad) (lunarCycles : Int) : Molad :=
  m.add_halakim (HALAKIM_PER_LUNAR_CYCLE * lunarCycles)

/-- Transcription of `_Molad.add_metonic_cycles`. -/
def Molad.add_metonic_cycles (m : Molad) (metonicCycles : Int) : Molad :=
  m.add_halakim (HALAKIM_PER_METONIC_CYCLE * metonicCycles)

/-- Transcription of `_Molad.day_of_week`. -/
def Molad.day_of_week (m : Molad) : Int :=
  m.day % 7

/-- A Jewish date; `isLeapYear` is the derived field set by `__init__`. -/
structure JewishDate where
  year : Int
  month : Int
  day : Int
  isLeapYear : Bool
deriving DecidableEq

/-- Transcription of `JewishDate.__init__`: sets the fields (including the
derived `isLeapYear`) and raises `InvalidDateError` when a bound is violated. -/
def JewishDate.make (year month day : Int) : Except DateError JewishDate :=
  if year ≤ 0 ∨ month < 1 ∨ 13 < month ∨ day < 1 ∨ 30 < day then
    .error .invalidDate
  else
    .ok { year := year, month := month, day := day, isLeapYear := is_leap_year year }

/-- Transcription of `_get_first_day_of_year`: the four dehiyyot
(postponement) rules applied to the molad of a year. -/
def get_first_day_of_year (metonicCycleYear : Int) (molad : Molad) : Int :=
  let tishrei1 := molad.day
  let dow := molad.day_of_week
  let lastWasLeapYear : Bool := LEAP_YEARS.contains ((metonicCycleYear - 1) % 19)
  let postpone : Bool :=
    decide (molad.halakim ≥ NOON)
      || (!(LEAP_YEARS.contains metonicCycleYear) && decide (dow = TUESDAY)
            && decide (molad.halakim ≥ AM3_11_20))
      || (lastWasLeapYear && decide (dow = MONDAY)
            && decide (molad.halakim ≥ AM9_32_43))
  let tishrei2 := if postpone then tishrei1 + 1 else tishrei1
  let dow2 := if postpone then (dow + 1) % 7 else dow
  if dow2 = WEDNESDAY ∨ dow2 = FRIDAY ∨ dow2 = SUNDAY then tishrei2 + 1 else tishrei2

/-- Transcription of `_molad_of_metonic_cycle`. -/
def molad_of_metonic_cycle (metonicCycle : Int) : Molad :=
  (Molad.init 0 NEW_MOON_OF_CREATION).add_metonic_cycles metonicCycle

/-- A molad is normalized when its halakim lie in `[0, HALAKIM_PER_DAY)`;
this is the state `_fix` establishes. -/
def Molad.normalized (m : Molad) : Prop :=
  0 ≤ m.halakim ∧ m.halakim < HALAKIM_PER_DAY

/-- Adding one metonic cycle to a normalized molad advances its day count by
6939 or 6940 and keeps it normalized. -/
theorem add_metonic_cycle_day_growth (m : Molad) (hm : m.normalized) :
    m.day + 6939 ≤ (m.add_metonic_cycles 1).day ∧
      (m.add_metonic_cycles 1).day ≤ m.day + 6940 ∧
      (m.add_metonic_cycles 1).normalized := by
  obtain ⟨hm0, hm1⟩ := hm
  simp only [Molad.add_metonic_cycles, Molad.add_halakim, Molad.fix, Molad.normalized,
    HALAKIM_PER_METONIC_CYCLE, HALAKIM_PER_LUNAR_CYCLE, HALAKIM_PER_DAY] at *
  norm_num
  omega

/-- The first `while` loop of `_find_nearby_tishrei_molad`, which corrects an
underestimated metonic-cycle number.  The normalization hypothesis (which
holds for every molad produced by `_fix`) bounds each step from below and
makes the loop terminate. -/
def correct_cycle (inputDay : Int) (metonicCycle : Int) (molad : Molad)
    (hm : molad.normalized) : Int × Molad :=
  if h : molad.day < inputDay - 6940 + 310 then
    correct_cycle inputDay (metonicCycle + 1) (molad.add_metonic_cycles 1)
      (add_metonic_cycle_day_growth molad hm).2.2
  else
    (metonicCycle, molad)
termination_by (inputDay - 6940 + 310 - molad.day).toNat
decreasing_by
  have hg := (add_metonic_cycle_day_growth molad hm).1
  omega

/-- The second `while` loop of `_find_nearby_tishrei_molad`: walk forward
through the metonic cycle until the molad passes `inputDay - 74`. -/
def find_molad_loop (inputDay : Int) (metonicYear : Int) (molad : Molad) : Int × Molad :=
  if metonicYear < 18 then
    if molad.day > inputDay - 74 then
      (metonicYear, molad)
    else
      find_molad_loop inputDay (metonicYear + 1)
        (molad.add_lunar_cycles (months_in_metonic_year metonicYear))
  else
    (metonicYear, molad)
termination_by (18 - metonicYear).toNat
decreasing_by
  omega

/-- Every molad produced by `_molad_of_metonic_cycle` is normalized. -/
theorem molad_of_metonic_cycle_normalized (metonicCycle : Int) :
    (molad_of_metonic_cycle metonicCycle).normalized := by
  simp only [molad_of_metonic_cycle, Molad.add_metonic_cycles, Molad.add_halakim, Molad.init,
    Molad.fix, Molad.normalized, HALAKIM_PER_DAY]
  omega

/-- Transcription of `_find_nearby_tishrei_molad`. -/
def find_nearby_tishrei_molad (inputDay : Int) : Int × Int × Molad :=
  let metonicCycle := (inputDay + 310) / 6940
  let start := correct_cycle inputDay metonicCycle (molad_of_metonic_cycle metonicCycle)
    (molad_of_metonic_cycle_normalized metonicCycle)
  let finish := find_molad_loop inputDay 0 start.2
  (start.1, finish.1, finish.2)

/-- Transcription of `_find_start_of_year`. -/
def find_start_of_year (year : Int) : Int × Int × Molad × Int :=
  let metonicCycle := (year - 1) / 19
  let metonicYear := (year - 1) % 19
  let molad := (molad_of_metonic_cycle metonicCycle).add_lunar_cycles
    (YEAR_OFFSET.getD metonicYear.toNat 0)
  let tishrei1 := get_first_day_of_year metonicYear molad
  (metonicCycle, metonicYear, molad, tishrei1)

/-- The Cheshvan/Kislev resolution shared by the two final branches of
`JewishDate.from_sdn` (the code after the `if`/`else` chain). -/
def from_sdn_tail (inputDay year tishrei1 nextTishrei1 : Int) : Except DateError JewishDate :=
  let yearLength := nextTishrei1 - tishrei1
  let day := inputDay - tishrei1 - 29
  let cheshvanLength : Int := if yearLength = 355 ∨ yearLength = 385 then 30 else 29
  if day ≤ cheshvanLength then
    JewishDate.make year 2 day
  else
    JewishDate.make year 3 (day - cheshvanLength)

/-- Transcription of `JewishDate.from_sdn`. -/
def JewishDate.from_sdn (sdn : Int) : Except DateError JewishDate :=
  if sdn ≤ JEWISH_SDN_OFFSET then .error .invalidDate
  else
    let inputDay := sdn - JEWISH_SDN_OFFSET
    let found := find_nearby_tishrei_molad inputDay
    let metonicCycle := found.1
    let metonicYear := found.2.1
    let molad := found.2.2
    let tishrei1 := get_first_day_of_year metonicYear molad
    if inputDay ≥ tishrei1 then
      let year := metonicCycle * 19 + metonicYear + 1
      if inputDay < tishrei1 + 59 then
        if inputDay < tishrei1 + 30 then
          JewishDate.make year 1 (inputDay - tishrei1 + 1)
        else
          JewishDate.make year 2 (inputDay - tishrei1 - 29)
      else
        let molad2 := molad.add_lunar_cycles (months_in_metonic_year metonicYear)
        let nextTishrei1 := get_first_day_of_year ((metonicYear + 1) % 19) molad2
        from_sdn_tail inputDay year tishrei1 nextTishrei1
    else
      let nextTishrei1 := tishrei1
      let year := metonicCycle * 19 + metonicYear
      if inputDay ≥ nextTishrei1 - 177 then
        if inputDay > nextTishrei1 - 30 then
          JewishDate.make year 13 (inputDay - nextTishrei1 + 30)
        else if inputDay > nextTishrei1 - 60 then
          JewishDate.make year 12 (inputDay - nextTishrei1 + 60)
        else if inputDay > nextTishrei1 - 89 then
          JewishDate.make year 11 (inputDay - nextTishrei1 + 89)
        else if inputDay > nextTishrei1 - 119 then
          JewishDate.make year 10 (inputDay - nextTishrei1 + 119)
        else if inputDay > nextTishrei1 - 148 then
          JewishDate.make year 9 (inputDay - nextTishrei1 + 148)
        else if inputDay > nextTishrei1 - 178 then
          JewishDate.make year 8 (inputDay - nextTishrei1 + 178)
        else
          .error .nameAccessError
      else
        let day0 := inputDay - nextTishrei1 + 207
        if day0 > 0 then
          JewishDate.make year 7 day0
        else
          let day1 := if is_leap_year year then day0 + 30 else day0
          if is_leap_year year ∧ day1 > 0 then
            JewishDate.make year 6 day1
          else
            let day2 := day1 + 30
            if day2 > 0 then
              JewishDate.make year 5 day2
            else
              let day3 := day2 + 29
              if day3 > 0 then
                JewishDate.make year 4 day3
              else
                let found2 := find_nearby_tishrei_molad (molad.day - 365)
                let tishrei1b := get_first_day_of_year found2.2.1 found2.2.2
                from_sdn_tail inputDay year tishrei1b nextTishrei1

/-- The per-month day-offset dictionary built in `JewishDate.to_sdn` (the
`offset` dict); `none` models an absent key, i.e. a `KeyError` on access. -/
def month_offset (adarsLength : Int) (month : Int) : Option Int :=
  if month = 1 then some (-1)
  else if month = 2 then some 29
  else if month = 4 then some (adarsLength + 237)
  else if month = 5 then some (adarsLength + 208)
  else if month = 6 then some (adarsLength + 178)
  else if month = 7 then some 207
  else if month = 8 then some 178
  else if month = 9 then some 148
  else if month = 10 then some 119
  else if month = 11 then some 89
  else if month = 12 then some 60
  else if month = 13 then some 30
  else none

/-- Transcription of `JewishDate.to_sdn`. -/
def JewishDate.to_sdn (d : JewishDate) : Except DateError Int :=
  if d.year ≤ 0 ∨ d.day ≤ 0 ∨ 30 < d.day then .error .invalidDate
  else
    let start := find_start_of_year d.year
    let metonicYear := start.2.1
    let tishrei1 := start.2.2.2
    let molad := (start.2.2.1).add_lunar_cycles (months_in_metonic_year metonicYear)
    let nextTishrei1 := get_first_day_of_year ((metonicYear + 1) % 19) molad
    let yearLength := nextTishrei1 - tishrei1
    let adarsLength : Int := if d.isLeapYear then 59 else 29
    if d.month = 1 ∨ d.month = 2 then
      match month_offset adarsLength d.month with
      | some o => .ok (tishrei1 + d.day + o + JEWISH_SDN_OFFSET)
      | none => .error .invalidDate
    else if d.month = 3 then
      if yearLength = 355 ∨ yearLength = 385 then
        .ok (tishrei1 + d.day + 59 + JEWISH_SDN_OFFSET)
      else
        .ok (tishrei1 + d.day + 58 + JEWISH_SDN_OFFSET)
    else
      match month_offset adarsLength d.month with
      | some o => .ok (nextTishrei1 + d.day - o + JEWISH_SDN_OFFSET)
      | none => .error .invalidDate

/-- The tuple of month names used by `english_month_name`. -/
def MONTH_NAMES : List String :=
  ["Tishrei", "Cheshvan", "Kislev", "Tevet", "Shevat", "Adar I",
   "Adar II", "Nisan", "Iyar", "Sivan", "Tamuz", "Av", "Elul"]

/-- Transcription of `JewishDate.english_month_name`. -/
def JewishDate.english_month_name (d : JewishDate) : String :=
  if d.month = 7 ∧ d.isLeapYear = false then "Adar II"
  else MONTH_NAMES.getD (d.month - 1).toNat ""

/-! Analysis layer: closed forms for the molad arithmetic.  `Molad.total`
measures a molad in halakim; every accumulator operation preserves or shifts
this measure, which lets the loopy search code be described by the pure
functions `moladDay` / `moladHal` / `tishrei1Day` below. -/

/-- The moment represented by a molad, measured in halakim. -/
def Molad.total (m : Molad) : Int :=
  m.day * HALAKIM_PER_DAY + m.halakim

/-- Count of lunar months elapsed from the epoch to the start of year `y`. -/
def totalMonths (y : Int) : Int :=
  235 * ((y - 1) / 19) + YEAR_OFFSET.getD ((y - 1) % 19).toNat 0

/-- The molad of Tishrei of year `y`, in halakim from the epoch. -/
def moladTotal (y : Int) : Int :=
  NEW_MOON_OF_CREATION + HALAKIM_PER_LUNAR_CYCLE * totalMonths y

/-- Day component of the molad of Tishrei of year `y`. -/
def moladDay (y : Int) : Int :=
  moladTotal y / HALAKIM_PER_DAY

/-- Halakim component of the molad of Tishrei of year `y`. -/
def moladHal (y : Int) : Int :=
  moladTotal y % HALAKIM_PER_DAY

/-- The normalized molad of Tishrei of year `y` as a `Molad` value. -/
def moladOfYear (y : Int) : Molad :=
  { day := moladDay y, halakim := moladHal y }

/-- First day of year `y` (relative day number): the year-start resolver
applied to the molad of year `y`. -/
def tishrei1Day (y : Int) : Int :=
  get_first_day_of_year ((y - 1) % 19) (moladOfYear y)

/-- Length of year `y` in days. -/
def yearLen (y : Int) : Int :=
  tishrei1Day (y + 1) - tishrei1Day y

theorem Molad.fix_total (m : Molad) : m.fix.total = m.total ∧ m.fix.normalized := by
  simp only [Molad.fix, Molad.total, Molad.normalized, HALAKIM_PER_DAY]
  constructor
  · ring_nf
    omega
  · omega

theorem Molad.add_halakim_total (m : Molad) (h : Int) :
    (m.add_halakim h).total = m.total + h ∧ (m.add_halakim h).normalized := by
  have := Molad.fix_total { day := m.day, halakim := m.halakim + h }
  simp only [Molad.add_halakim]
  simp only [Molad.total] at *
  constructor
  · rw [this.1]; ring
  · exact this.2

/-- A normalized molad is determined by its total. -/
theorem Molad.eq_of_total (m : Molad) (t : Int) (hn : m.normalized) (ht : m.total = t) :
    m = { day := t / HALAKIM_PER_DAY, halakim := t % HALAKIM_PER_DAY } := by
  obtain ⟨d, h⟩ := m
  obtain ⟨h0, h1⟩ := hn
  simp only [Molad.total, HALAKIM_PER_DAY] at *
  have hd : d = t / 25920 := by omega
  have hh : h = t % 25920 := by omega
  simp [hd, hh]

theorem molad_of_metonic_cycle_spec (mc : Int) :
    (molad_of_metonic_cycle mc).total = NEW_MOON_OF_CREATION + HALAKIM_PER_METONIC_CYCLE * mc ∧
      (molad_of_metonic_cycle mc).normalized := by
  simp only [molad_of_metonic_cycle, Molad.add_metonic_cycles]
  have h1 := Molad.fix_total { day := (0:Int), halakim := NEW_MOON_OF_CREATION }
  have h2 := (Molad.init 0 NEW_MOON_OF_CREATION).add_halakim_total (HALAKIM_PER_METONIC_CYCLE * mc)
  have h3 : (Molad.init 0 NEW_MOON_OF_CREATION).total = NEW_MOON_OF_CREATION := by
    have := h1.1
    simp only [Molad.init]
    rw [this]
    simp [Molad.total]
  exact ⟨by rw [h2.1, h3], h2.2⟩

theorem find_start_of_year_spec (y : Int) :
    find_start_of_year y = ((y - 1) / 19, (y - 1) % 19, moladOfYear y, tishrei1Day y) := by
  have hmc := molad_of_metonic_cycle_spec ((y - 1) / 19)
  have hadd := (molad_of_metonic_cycle ((y - 1) / 19)).add_halakim_total
    (HALAKIM_PER_LUNAR_CYCLE * YEAR_OFFSET.getD (((y - 1) % 19)).toNat 0)
  have htot : ((molad_of_metonic_cycle ((y - 1) / 19)).add_lunar_cycles
      (YEAR_OFFSET.getD (((y - 1) % 19)).toNat 0)).total = moladTotal y := by
    simp only [Molad.add_lunar_cycles]
    rw [hadd.1, hmc.1]
    simp only [moladTotal, totalMonths, HALAKIM_PER_METONIC_CYCLE]
    ring
  have hkey := Molad.eq_of_total _ (moladTotal y)
    (by simpa only [Molad.add_lunar_cycles] using hadd.2) htot
  simp only [find_start_of_year, tishrei1Day, moladOfYear, moladDay, moladHal]
  rw [hkey]

theorem totalMonths_succ (y : Int) :
    totalMonths (y + 1) = totalMonths y + months_in_metonic_year ((y - 1) % 19) := by
  obtain ⟨p, q, hpq, hp0, hp1⟩ : ∃ p q : Int, y - 1 = 19 * q + p ∧ 0 ≤ p ∧ p < 19 :=
    ⟨(y - 1) % 19, (y - 1) / 19, by omega, by omega, by omega⟩
  have hdiv : (y - 1) / 19 = q := by omega
  have hmod : (y - 1) % 19 = p := by omega
  by_cases hp18 : p = 18
  · have hd2 : (y + 1 - 1) / 19 = q + 1 := by omega
    have hm2 : (y + 1 - 1) % 19 = 0 := by omega
    rw [totalMonths, totalMonths, hdiv, hmod, hd2, hm2, hp18]
    simp [months_in_metonic_year, YEAR_OFFSET, LEAP_YEARS]
    ring
  · have hd2 : (y + 1 - 1) / 19 = q := by omega
    have hm2 : (y + 1 - 1) % 19 = p + 1 := by omega
    rw [totalMonths, totalMonths, hdiv, hmod, hd2, hm2]
    have hp17 : p ≤ 17 := by omega
    interval_cases p <;>
      simp [months_in_metonic_year, YEAR_OFFSET, LEAP_YEARS] <;> ring

theorem moladTotal_succ (y : Int) :
    moladTotal (y + 1) =
      moladTotal y + HALAKIM_PER_LUNAR_CYCLE * months_in_metonic_year ((y - 1) % 19) := by
  simp only [moladTotal, totalMonths_succ]
  ring

theorem months_in_metonic_year_eq (p : Int) :
    (LEAP_YEARS.contains p = true → months_in_metonic_year p = 13) ∧
      (LEAP_YEARS.contains p = false → months_in_metonic_year p = 12) := by
  constructor <;> intro h <;> simp only [months_in_metonic_year] <;> rw [h] <;> simp

/-- The molad day advances 354–355 days for a 12-month year and 383–384 days
for a 13-month year; exact carries are recovered from the halakim. -/
theorem moladDay_step (y : Int) :
    moladDay y + 354 ≤ moladDay (y + 1) ∧ moladDay (y + 1) ≤ moladDay y + 384 := by
  have hs := moladTotal_succ y
  have hm : months_in_metonic_year ((y - 1) % 19) = 13 ∨
      months_in_metonic_year ((y - 1) % 19) = 12 := by
    by_cases h : LEAP_YEARS.contains ((y - 1) % 19) = true
    · exact Or.inl ((months_in_metonic_year_eq _).1 h)
    · exact Or.inr ((months_in_metonic_year_eq _).2 (by simpa using h))
  simp only [moladDay, HALAKIM_PER_LUNAR_CYCLE, HALAKIM_PER_DAY] at *
  rcases hm with hm | hm <;> rw [hm] at hs <;> norm_num at hs <;> omega

theorem moladDay_le_add (y : Int) (n : Nat) :
    moladDay y + 354 * n ≤ moladDay (y + n) ∧ moladDay (y + n) ≤ moladDay y + 384 * n := by
  induction n with
  | zero => simp
  | succ k ih =>
    have hst := moladDay_step (y + k)
    have hcast : (y : Int) + (k + 1 : Nat) = (y + k) + 1 := by push_cast; ring
    rw [hcast]
    push_cast
    omega

/-- Monotonicity of the molad day with linear bounds. -/
theorem moladDay_mono (y z : Int) (h : y ≤ z) :
    moladDay y + 354 * (z - y) ≤ moladDay z ∧ moladDay z ≤ moladDay y + 384 * (z - y) := by
  obtain ⟨n, hn⟩ : ∃ n : Nat, z = y + n := ⟨(z - y).toNat, by omega⟩
  subst hn
  have := moladDay_le_add y n
  constructor <;> omega

/-- The year-start resolver postpones the molad day by at most two days. -/
theorem get_first_day_of_year_delta (p : Int) (m : Molad) :
    m.day ≤ get_first_day_of_year p m ∧ get_first_day_of_year p m ≤ m.day + 2 := by
  simp only [get_first_day_of_year, Molad.day_of_week]
  split_ifs <;> omega

theorem tishrei1Day_delta (y : Int) :
    moladDay y ≤ tishrei1Day y ∧ tishrei1Day y ≤ moladDay y + 2 := by
  simpa only [tishrei1Day, moladOfYear] using
    get_first_day_of_year_delta ((y - 1) % 19) (moladOfYear y)

/-- The year-start resolver with the two leap-year lookups abstracted as
Boolean flags; definitionally equal to `_get_first_day_of_year`. -/
def dehiyyot (notLeap lastLeap : Bool) (day hal : Int) : Int :=
  let dow := day % 7
  let postpone : Bool :=
    decide (hal ≥ NOON)
      || (notLeap && decide (dow = TUESDAY) && decide (hal ≥ AM3_11_20))
      || (lastLeap && decide (dow = MONDAY) && decide (hal ≥ AM9_32_43))
  let tishrei2 := if postpone then day + 1 else day
  let dow2 := if postpone then (dow + 1) % 7 else dow
  if dow2 = WEDNESDAY ∨ dow2 = FRIDAY ∨ dow2 = SUNDAY then tishrei2 + 1 else tishrei2

theorem gfd_eq_dehiyyot (p : Int) (m : Molad) :
    get_first_day_of_year p m =
      dehiyyot (!(LEAP_YEARS.contains p)) (LEAP_YEARS.contains ((p - 1) % 19))
        m.day m.halakim := rfl

/-- Core dehiyyot arithmetic for a common (12-month) year: whatever the two
free leap flags are, the gap between consecutive year starts is 353 to 355
days.  The flags fixed to `true`/`false` encode that the first year is not
leap (so GaTaRaD is active for it, and BeTUTekpat is inactive for the next
year). -/
theorem dehiyyot_diff_nonleap (l0 n1 : Bool) (t d0 h0 d1 h1 : Int)
    (e0 : d0 * 25920 + h0 = t) (h00 : 0 ≤ h0) (h01 : h0 < 25920)
    (e1 : d1 * 25920 + h1 = t + 9185196) (h10 : 0 ≤ h1) (h11 : h1 < 25920) :
    dehiyyot true l0 d0 h0 + 353 ≤ dehiyyot n1 false d1 h1 ∧
      dehiyyot n1 false d1 h1 ≤ dehiyyot true l0 d0 h0 + 355 := by
  cases l0 <;> cases n1 <;>
    simp only [dehiyyot, NOON, AM3_11_20, AM9_32_43, HALAKIM_PER_HOUR,
      SUNDAY, MONDAY, TUESDAY, WEDNESDAY, FRIDAY,
      Bool.false_and, Bool.and_false, Bool.true_and, Bool.and_true,
      Bool.or_false, Bool.false_or, Bool.true_or, Bool.or_true,
      Bool.not_true, Bool.not_false, Bool.or_eq_true, Bool.and_eq_true,
      decide_eq_true_eq] <;>
    norm_num <;>
    split_ifs <;> omega

/-- Core dehiyyot arithmetic for a leap (13-month) year: the gap between
consecutive year starts is 383 to 385 days. -/
theorem dehiyyot_diff_leap (l0 n1 : Bool) (t d0 h0 d1 h1 : Int)
    (e0 : d0 * 25920 + h0 = t) (h00 : 0 ≤ h0) (h01 : h0 < 25920)
    (e1 : d1 * 25920 + h1 = t + 9950629) (h10 : 0 ≤ h1) (h11 : h1 < 25920) :
    dehiyyot false l0 d0 h0 + 383 ≤ dehiyyot n1 true d1 h1 ∧
      dehiyyot n1 true d1 h1 ≤ dehiyyot false l0 d0 h0 + 385 := by
  cases l0 <;> cases n1 <;>
    simp only [dehiyyot, NOON, AM3_11_20, AM9_32_43, HALAKIM_PER_HOUR,
      SUNDAY, MONDAY, TUESDAY, WEDNESDAY, FRIDAY,
      Bool.false_and, Bool.and_false, Bool.true_and, Bool.and_true,
      Bool.or_false, Bool.false_or, Bool.true_or, Bool.or_true,
      Bool.not_true, Bool.not_false, Bool.or_eq_true, Bool.and_eq_true,
      decide_eq_true_eq] <;>
    norm_num <;>
    split_ifs <;> omega

/-- The keviyyot theorem: every common year is 353, 354 or 355 days long, and
every leap year is 383, 384 or 385 days long. -/
theorem yearLen_bounds (y : Int) :
    (is_leap_year y = false → 353 ≤ yearLen y ∧ yearLen y ≤ 355) ∧
      (is_leap_year y = true → 383 ≤ yearLen y ∧ yearLen y ≤ 385) := by
  have hidx : (y + 1 - 1) % 19 = ((y - 1) % 19 + 1) % 19 := by omega
  have hback : (((y - 1) % 19 + 1) % 19 - 1) % 19 = (y - 1) % 19 := by omega
  have ht := moladTotal_succ y
  have e0 : moladDay y * 25920 + moladHal y = moladTotal y ∧ 0 ≤ moladHal y ∧
      moladHal y < 25920 := by
    simp only [moladDay, moladHal, HALAKIM_PER_DAY]; omega
  have e1 : moladDay (y + 1) * 25920 + moladHal (y + 1) = moladTotal (y + 1) ∧
      0 ≤ moladHal (y + 1) ∧ moladHal (y + 1) < 25920 := by
    simp only [moladDay, moladHal, HALAKIM_PER_DAY]; omega
  have hleap : is_leap_year y = LEAP_YEARS.contains ((y - 1) % 19) := rfl
  have h1 := gfd_eq_dehiyyot ((y - 1) % 19) (moladOfYear y)
  have h2 := gfd_eq_dehiyyot (((y - 1) % 19 + 1) % 19) (moladOfYear (y + 1))
  rw [hback] at h2
  simp only [moladOfYear] at h1 h2
  rw [hleap]
  constructor
  · intro hcp
    have hm := (months_in_metonic_year_eq ((y - 1) % 19)).2 hcp
    rw [hm] at ht
    norm_num [HALAKIM_PER_LUNAR_CYCLE, HALAKIM_PER_DAY] at ht
    rw [ht] at e1
    simp only [yearLen, tishrei1Day, hidx, moladOfYear]
    rw [h1, h2, hcp]
    simp only [Bool.not_false]
    have hcore := dehiyyot_diff_nonleap
      (LEAP_YEARS.contains (((y - 1) % 19 - 1) % 19))
      (!(LEAP_YEARS.contains (((y - 1) % 19 + 1) % 19)))
      (moladTotal y) (moladDay y) (moladHal y) (moladDay (y + 1)) (moladHal (y + 1))
      e0.1 e0.2.1 e0.2.2 e1.1 e1.2.1 e1.2.2
    omega
  · intro hcp
    have hm := (months_in_metonic_year_eq ((y - 1) % 19)).1 hcp
    rw [hm] at ht
    norm_num [HALAKIM_PER_LUNAR_CYCLE, HALAKIM_PER_DAY] at ht
    rw [ht] at e1
    simp only [yearLen, tishrei1Day, hidx, moladOfYear]
    rw [h1, h2, hcp]
    simp only [Bool.not_true]
    have hcore := dehiyyot_diff_leap
      (LEAP_YEARS.contains (((y - 1) % 19 - 1) % 19))
      (!(LEAP_YEARS.contains (((y - 1) % 19 + 1) % 19)))
      (moladTotal y) (moladDay y) (moladHal y) (moladDay (y + 1)) (moladHal (y + 1))
      e0.1 e0.2.1 e0.2.2 e1.1 e1.2.1 e1.2.2
    omega

/-- A normalized molad carrying the total of year `y` has exactly the day and
halakim of that year's molad. -/
theorem molad_day_eq (m : Molad) (y : Int) (hm : m.normalized)
    (htot : m.total = moladTotal y) :
    m.day = moladDay y ∧ m.halakim = moladHal y := by
  have h := Molad.eq_of_total m (moladTotal y) hm htot
  rw [h]
  exact ⟨rfl, rfl⟩

/-- Postcondition of the metonic-cycle correction loop: it exits with a
normalized cycle-start molad whose day lies within a fixed window around the
input day. -/
theorem correct_cycle_spec (inputDay mc : Int) (m : Molad) (hm : m.normalized)
    (htot : m.total = NEW_MOON_OF_CREATION + HALAKIM_PER_METONIC_CYCLE * mc)
    (hub : m.day ≤ inputDay + 311) :
    ∃ mc2 m2, correct_cycle inputDay mc m hm = (mc2, m2) ∧
      m2.normalized ∧
      m2.total = NEW_MOON_OF_CREATION + HALAKIM_PER_METONIC_CYCLE * mc2 ∧
      mc ≤ mc2 ∧ inputDay - 6630 ≤ m2.day ∧ m2.day ≤ inputDay + 311 := by
  rw [correct_cycle]
  split_ifs with h
  · have hg := add_metonic_cycle_day_growth m hm
    have htot2 : (m.add_metonic_cycles 1).total =
        NEW_MOON_OF_CREATION + HALAKIM_PER_METONIC_CYCLE * (mc + 1) := by
      simp only [Molad.add_metonic_cycles]
      rw [(m.add_halakim_total (HALAKIM_PER_METONIC_CYCLE * 1)).1, htot]
      ring
    have hub2 : (m.add_metonic_cycles 1).day ≤ inputDay + 311 := by omega
    obtain ⟨mc2, m2, heq, h1, h2, h3, h4, h5⟩ :=
      correct_cycle_spec inputDay (mc + 1) (m.add_metonic_cycles 1) hg.2.2 htot2 hub2
    exact ⟨mc2, m2, heq, h1, h2, by omega, h4, h5⟩
  · exact ⟨mc, m, rfl, hm, htot, le_refl _, by omega, hub⟩
termination_by (inputDay - 6940 + 310 - m.day).toNat
decreasing_by
  have := (add_metonic_cycle_day_growth m hm).1
  omega

/-- Postcondition of the year walk in `_find_nearby_tishrei_molad`: starting
at metonic position `k` with the molad of year `19*mc + k + 1`, it stops at a
position `my` whose molad is the first (from `k`) to pass `inputDay - 74`, or
at position 18. -/
theorem find_molad_loop_spec (inputDay mc k : Int) (m : Molad) (hk0 : 0 ≤ k)
    (hk1 : k ≤ 18) (hm : m.normalized) (htot : m.total = moladTotal (19 * mc + k + 1)) :
    ∃ my m2, find_molad_loop inputDay k m = (my, m2) ∧
      k ≤ my ∧ my ≤ 18 ∧ m2.normalized ∧ m2.total = moladTotal (19 * mc + my + 1) ∧
      (my < 18 → inputDay - 74 < moladDay (19 * mc + my + 1)) ∧
      (my = k ∨ moladDay (19 * mc + my) ≤ inputDay - 74) := by
  have hmd := molad_day_eq m (19 * mc + k + 1) hm htot
  rw [find_molad_loop]
  split_ifs with h1 h2
  · refine ⟨k, m, rfl, le_refl _, by omega, hm, htot, ?_, Or.inl rfl⟩
    intro _
    omega
  · have hpos : (19 * mc + k + 1 - 1) % 19 = k := by omega
    have htot2 : (m.add_lunar_cycles (months_in_metonic_year k)).total =
        moladTotal (19 * mc + (k + 1) + 1) := by
      simp only [Molad.add_lunar_cycles]
      rw [(m.add_halakim_total _).1, htot]
      have hs := moladTotal_succ (19 * mc + k + 1)
      rw [hpos] at hs
      have harg : 19 * mc + k + 1 + 1 = 19 * mc + (k + 1) + 1 := by ring
      rw [harg] at hs
      omega
    have hnorm2 : (m.add_lunar_cycles (months_in_metonic_year k)).normalized := by
      simpa only [Molad.add_lunar_cycles] using
        (m.add_halakim_total (HALAKIM_PER_LUNAR_CYCLE * months_in_metonic_year k)).2
    obtain ⟨my, m2, heq, h3, h4, h5, h6, h7, h8⟩ :=
      find_molad_loop_spec inputDay mc (k + 1)
        (m.add_lunar_cycles (months_in_metonic_year k)) (by omega) (by omega) hnorm2 htot2
    refine ⟨my, m2, heq, by omega, h4, h5, h6, h7, Or.inr ?_⟩
    rcases h8 with h8 | h8
    · have : 19 * mc + my = 19 * mc + k + 1 := by omega
      rw [this]
      omega
    · exact h8
  · refine ⟨k, m, rfl, le_refl _, by omega, hm, htot, ?_, Or.inl rfl⟩
    intro hlt
    omega
termination_by (18 - k).toNat
decreasing_by omega

theorem moladDay_hal_spec (y : Int) :
    moladDay y * 25920 + moladHal y = moladTotal y ∧ 0 ≤ moladHal y ∧ moladHal y < 25920 := by
  simp only [moladDay, moladHal, HALAKIM_PER_DAY]
  omega

theorem moladTotal_cycle_start (mc : Int) :
    moladTotal (19 * mc + 1) = NEW_MOON_OF_CREATION + HALAKIM_PER_METONIC_CYCLE * mc := by
  have h1 : (19 * mc + 1 - 1) / 19 = mc := by omega
  have h2 : (19 * mc + 1 - 1) % 19 = 0 := by omega
  simp only [moladTotal, totalMonths, h1, h2, HALAKIM_PER_METONIC_CYCLE,
    HALAKIM_PER_LUNAR_CYCLE, HALAKIM_PER_DAY, NEW_MOON_OF_CREATION, YEAR_OFFSET]
  norm_num [List.getD]
  ring

theorem moladTotal_cycle_pos18 (mc : Int) :
    moladTotal (19 * mc + 19) = moladTotal (19 * mc + 1) + HALAKIM_PER_LUNAR_CYCLE * 222 := by
  have h1 : (19 * mc + 19 - 1) / 19 = mc := by omega
  have h2 : (19 * mc + 19 - 1) % 19 = 18 := by omega
  have h3 : (19 * mc + 1 - 1) / 19 = mc := by omega
  have h4 : (19 * mc + 1 - 1) % 19 = 0 := by omega
  have hoff18 : YEAR_OFFSET.getD ((18 : Int)).toNat 0 = 222 := by decide
  have hoff0 : YEAR_OFFSET.getD ((0 : Int)).toNat 0 = 0 := by decide
  simp only [moladTotal, totalMonths, h1, h2, h3, h4, hoff18, hoff0]
  ring

theorem moladTotal_cycle_prev (mc : Int) :
    moladTotal (19 * mc + 1) = moladTotal (19 * mc) + HALAKIM_PER_LUNAR_CYCLE * 13 := by
  have hs := moladTotal_succ (19 * mc)
  have h2 : (19 * mc - 1) % 19 = 18 := by omega
  rw [h2] at hs
  have h13 : months_in_metonic_year 18 = 13 := by decide
  rw [h13] at hs
  have harg : 19 * mc + 1 = 19 * mc + 1 := rfl
  omega

/-- Full postcondition of `_find_nearby_tishrei_molad`: for any day at most a
few days before the epoch or later, the search returns the molad of a year
`Y = 19*mc + my + 1` that brackets the input day: the previous year's molad
is at least 72 days before the input day, and year `Y` begins no more than 75
days before it. -/
theorem find_nearby_spec (inputDay : Int) (hin : -10 ≤ inputDay) :
    ∃ mc my m, find_nearby_tishrei_molad inputDay = (mc, my, m) ∧
      0 ≤ mc ∧ 0 ≤ my ∧ my ≤ 18 ∧ m.normalized ∧
      m.total = moladTotal (19 * mc + my + 1) ∧
      inputDay - 75 ≤ moladDay (19 * mc + my + 1) ∧
      (my < 18 → inputDay - 74 < moladDay (19 * mc + my + 1)) ∧
      moladDay (19 * mc + my) ≤ inputDay - 72 := by
  have hmc0 : 0 ≤ (inputDay + 310) / 6940 := by omega
  obtain ⟨hct, hcn⟩ := molad_of_metonic_cycle_spec ((inputDay + 310) / 6940)
  have hub : (molad_of_metonic_cycle ((inputDay + 310) / 6940)).day ≤ inputDay + 311 := by
    have hb := hcn
    simp only [Molad.total, Molad.normalized, HALAKIM_PER_DAY, NEW_MOON_OF_CREATION,
      HALAKIM_PER_METONIC_CYCLE, HALAKIM_PER_LUNAR_CYCLE] at hct hb
    norm_num at hct
    omega
  obtain ⟨mc, m1, heq1, hn1, ht1, hge1, hlo1, hhi1⟩ :=
    correct_cycle_spec inputDay ((inputDay + 310) / 6940)
      (molad_of_metonic_cycle ((inputDay + 310) / 6940))
      (molad_of_metonic_cycle_normalized ((inputDay + 310) / 6940)) hct hub
  have hmcpos : 0 ≤ mc := le_trans hmc0 hge1
  have ht1b : m1.total = moladTotal (19 * mc + 1) := by
    rw [ht1, moladTotal_cycle_start]
  have hday1 := molad_day_eq m1 (19 * mc + 1) hn1 ht1b
  obtain ⟨my, m2, heq2, hky, hmy18, hn2, ht2, hbrk, hprev⟩ :=
    find_molad_loop_spec inputDay mc 0 m1 (by omega) (by omega) hn1 (by simpa using ht1b)
  refine ⟨mc, my, m2, ?_, hmcpos, hky, hmy18, hn2, ht2, ?_, hbrk, ?_⟩
  · simp only [find_nearby_tishrei_molad]
    rw [heq1]
    simp only
    rw [heq2]
  · by_cases hcase : my < 18
    · have := hbrk hcase
      omega
    · have hmy : my = 18 := by omega
      subst hmy
      have e1 := moladDay_hal_spec (19 * mc + 1)
      have e19 := moladDay_hal_spec (19 * mc + 19)
      have hsum := moladTotal_cycle_pos18 mc
      simp only [HALAKIM_PER_LUNAR_CYCLE, HALAKIM_PER_DAY] at hsum
      norm_num at hsum
      have harg : 19 * mc + 18 + 1 = 19 * mc + 19 := by ring
      rw [harg]
      omega
  · rcases hprev with hmy0 | hdone
    · subst hmy0
      have e0 := moladDay_hal_spec (19 * mc)
      have e1 := moladDay_hal_spec (19 * mc + 1)
      have hpv := moladTotal_cycle_prev mc
      simp only [HALAKIM_PER_LUNAR_CYCLE, HALAKIM_PER_DAY] at hpv
      norm_num at hpv
      have harg : 19 * mc + 0 = 19 * mc := by ring
      rw [harg]
      omega
    · omega

/-- Strict growth of year starts: later years begin at least 352 days later
per elapsed year. -/
theorem tishrei1Day_mono (y z : Int) (h : y ≤ z) :
    tishrei1Day y + 352 * (z - y) ≤ tishrei1Day z := by
  rcases eq_or_lt_of_le h with rfl | hlt
  · simp
  · have hm := moladDay_mono y z h
    have hd1 := tishrei1Day_delta y
    have hd2 := tishrei1Day_delta z
    have h1 : (1 : Int) ≤ z - y := by omega
    linarith [hm.1]

/-- Length of Cheshvan in year `y`, as decided by the converters: 30 days
exactly when the year has 355 or 385 days. -/
def cheshvanLen (y : Int) : Int :=
  if yearLen y = 355 ∨ yearLen y = 385 then 30 else 29

/-- Length of Kislev in year `y`: 29 days exactly when the year has 353 or
383 days. -/
def kislevLen (y : Int) : Int :=
  if yearLen y = 353 ∨ yearLen y = 383 then 29 else 30

/-- Day of year (0-based) on which month `m` of year `y` starts.  Months 1-6
are counted from the start of the year, months 7-13 from its end; the two
meet consistently because of the keviyyot theorem. -/
def monthStartDoy (y m : Int) : Int :=
  if m = 1 then 0
  else if m = 2 then 30
  else if m = 3 then 30 + cheshvanLen y
  else if m = 4 then 30 + cheshvanLen y + kislevLen y
  else if m = 5 then 30 + cheshvanLen y + kislevLen y + 29
  else if m = 6 then 30 + cheshvanLen y + kislevLen y + 59
  else if m = 7 then yearLen y - 206
  else if m = 8 then yearLen y - 177
  else if m = 9 then yearLen y - 147
  else if m = 10 then yearLen y - 118
  else if m = 11 then yearLen y - 88
  else if m = 12 then yearLen y - 59
  else yearLen y - 29

/-- Number of days in month `m` of year `y`. -/
def monthLen (y m : Int) : Int :=
  if m = 1 then 30
  else if m = 2 then cheshvanLen y
  else if m = 3 then kislevLen y
  else if m = 4 then 29
  else if m = 5 then 30
  else if m = 6 then 30
  else if m = 7 then 29
  else if m = 8 then 30
  else if m = 9 then 29
  else if m = 10 then 30
  else if m = 11 then 29
  else if m = 12 then 30
  else 29

/-- Reference month/day resolution: the date whose year is `y` and whose
0-based day of year is `doy`.  In a common year the slot of month 6 (Adar I)
is empty, so the scan skips straight from Shevat to Adar II. -/
def resolve (y doy : Int) : JewishDate :=
  if doy < monthStartDoy y 2 then
    { year := y, month := 1, day := doy + 1, isLeapYear := is_leap_year y }
  else if doy < monthStartDoy y 3 then
    { year := y, month := 2, day := doy - monthStartDoy y 2 + 1, isLeapYear := is_leap_year y }
  else if doy < monthStartDoy y 4 then
    { year := y, month := 3, day := doy - monthStartDoy y 3 + 1, isLeapYear := is_leap_year y }
  else if doy < monthStartDoy y 5 then
    { year := y, month := 4, day := doy - monthStartDoy y 4 + 1, isLeapYear := is_leap_year y }
  else if doy < monthStartDoy y 6 then
    { year := y, month := 5, day := doy - monthStartDoy y 5 + 1, isLeapYear := is_leap_year y }
  else if doy < monthStartDoy y 7 then
    { year := y, month := 6, day := doy - monthStartDoy y 6 + 1, isLeapYear := is_leap_year y }
  else if doy < monthStartDoy y 8 then
    { year := y, month := 7, day := doy - monthStartDoy y 7 + 1, isLeapYear := is_leap_year y }
  else if doy < monthStartDoy y 9 then
    { year := y, month := 8, day := doy - monthStartDoy y 8 + 1, isLeapYear := is_leap_year y }
  else if doy < monthStartDoy y 10 then
    { year := y, month := 9, day := doy - monthStartDoy y 9 + 1, isLeapYear := is_leap_year y }
  else if doy < monthStartDoy y 11 then
    { year := y, month := 10, day := doy - monthStartDoy y 10 + 1, isLeapYear := is_leap_year y }
  else if doy < monthStartDoy y 12 then
    { year := y, month := 11, day := doy - monthStartDoy y 11 + 1, isLeapYear := is_leap_year y }
  else if doy < monthStartDoy y 13 then
    { year := y, month := 12, day := doy - monthStartDoy y 12 + 1, isLeapYear := is_leap_year y }
  else
    { year := y, month := 13, day := doy - monthStartDoy y 13 + 1, isLeapYear := is_leap_year y }

/-- Structural facts about month lengths that follow from the keviyyot
theorem: the variable months absorb exactly the year-length surplus. -/
theorem month_sum (y : Int) :
    29 ≤ cheshvanLen y ∧ cheshvanLen y ≤ 30 ∧ 29 ≤ kislevLen y ∧ kislevLen y ≤ 30 ∧
      (is_leap_year y = false → cheshvanLen y + kislevLen y = yearLen y - 295) ∧
      (is_leap_year y = true → cheshvanLen y + kislevLen y = yearLen y - 325) := by
  have hb := yearLen_bounds y
  simp only [cheshvanLen, kislevLen]
  cases hl : is_leap_year y
  · have := hb.1 hl
    split_ifs <;> simp_all <;> omega
  · have := hb.2 hl
    split_ifs <;> simp_all <;> omega

theorem make_ok (y mo d : Int) (h1 : 1 ≤ y) (h2 : 1 ≤ mo) (h3 : mo ≤ 13)
    (h4 : 1 ≤ d) (h5 : d ≤ 30) :
    JewishDate.make y mo d =
      .ok { year := y, month := mo, day := d, isLeapYear := is_leap_year y } := by
  simp only [JewishDate.make]
  rw [if_neg]
  omega

theorem gfd_eq_tishrei1Day (p z : Int) (m : Molad) (hn : m.normalized)
    (ht : m.total = moladTotal z) (hp : p = (z - 1) % 19) :
    get_first_day_of_year p m = tishrei1Day z := by
  subst hp
  rw [Molad.eq_of_total m (moladTotal z) hn ht]
  rfl



theorem tishrei1Day_one : tishrei1Day 1 = 1 := by decide

theorem moladDay_two : moladDay 2 = 355 := by decide

/-- Correctness of the shared Cheshvan/Kislev tail of `from_sdn`, for an
input day between day 59 and the end of Kislev of year `Y`. -/
theorem from_sdn_tail_spec (Y inputDay : Int) (hY : 1 ≤ Y)
    (hdoy_lo : tishrei1Day Y + 59 ≤ inputDay)
    (hdoy_hi : inputDay ≤ tishrei1Day Y + 29 + cheshvanLen Y + kislevLen Y) :
    from_sdn_tail inputDay Y (tishrei1Day Y) (tishrei1Day (Y + 1)) =
      .ok (resolve Y (inputDay - tishrei1Day Y)) := by
  obtain ⟨hc1, hc2, hk1, hk2, hnl, hlp⟩ := month_sum Y
  have hylb := yearLen_bounds Y
  have hyl : (353 : Int) ≤ yearLen Y ∧ yearLen Y ≤ 385 := by
    cases hb : is_leap_year Y
    · have := hylb.1 hb; omega
    · have := hylb.2 hb; omega
  have hms2 : monthStartDoy Y 2 = 30 := by norm_num [monthStartDoy]
  have hms3 : monthStartDoy Y 3 = 30 + cheshvanLen Y := by norm_num [monthStartDoy]
  have hms4 : monthStartDoy Y 4 = 30 + cheshvanLen Y + kislevLen Y := by
    norm_num [monthStartDoy]
  simp only [from_sdn_tail]
  have hylen : tishrei1Day (Y + 1) - tishrei1Day Y = yearLen Y := rfl
  rw [hylen]
  have hcl : (if yearLen Y = 355 ∨ yearLen Y = 385 then (30 : Int) else 29) = cheshvanLen Y :=
    rfl
  rw [hcl]
  by_cases hch : inputDay - tishrei1Day Y - 29 ≤ cheshvanLen Y
  · rw [if_pos hch, make_ok Y 2 (inputDay - tishrei1Day Y - 29) hY (by omega) (by omega)
      (by omega) (by omega)]
    simp only [resolve]
    rw [if_neg (not_lt.mpr (by omega)), if_pos (by omega)]
    simp only [Except.ok.injEq, JewishDate.mk.injEq, eq_self_iff_true, and_true, true_and]
    omega
  · rw [if_neg hch, make_ok Y 3 (inputDay - tishrei1Day Y - 29 - cheshvanLen Y) hY (by omega)
      (by omega) (by omega) (by omega)]
    simp only [resolve]
    rw [if_neg (not_lt.mpr (by omega)), if_neg (not_lt.mpr (by omega)), if_pos (by omega)]
    simp only [Except.ok.injEq, JewishDate.mk.injEq, eq_self_iff_true, and_true, true_and]
    omega

theorem resolve_at_7 (y doy : Int)
    (hc1 : 29 ≤ cheshvanLen y) (hc2 : cheshvanLen y ≤ 30)
    (hk1 : 29 ≤ kislevLen y) (hk2 : kislevLen y ≤ 30)
    (hsum : cheshvanLen y + kislevLen y + 295 ≤ yearLen y)
    (h1 : yearLen y - 206 ≤ doy) (h2 : doy < yearLen y - 177) :
    resolve y doy =
      { year := y, month := 7, day := doy - (yearLen y - 206) + 1, isLeapYear := is_leap_year y } := by
  simp only [resolve, monthStartDoy]
  norm_num
  rw [if_neg (not_lt.mpr (by omega)), if_neg (not_lt.mpr (by omega)), if_neg (not_lt.mpr (by omega)), if_neg (not_lt.mpr (by omega)), if_neg (not_lt.mpr (by omega)), if_neg (not_lt.mpr (by omega)), if_pos (by omega)]

theorem resolve_at_8 (y doy : Int)
    (hc1 : 29 ≤ cheshvanLen y) (hc2 : cheshvanLen y ≤ 30)
    (hk1 : 29 ≤ kislevLen y) (hk2 : kislevLen y ≤ 30)
    (hsum : cheshvanLen y + kislevLen y + 295 ≤ yearLen y)
    (h1 : yearLen y - 177 ≤ doy) (h2 : doy < yearLen y - 147) :
    resolve y doy =
      { year := y, month := 8, day := doy - (yearLen y - 177) + 1, isLeapYear := is_leap_year y } := by
  simp only [resolve, monthStartDoy]
  norm_num
  rw [if_neg (not_lt.mpr (by omega)), if_neg (not_lt.mpr (by omega)), if_neg (not_lt.mpr (by omega)), if_neg (not_lt.mpr (by omega)), if_neg (not_lt.mpr (by omega)), if_neg (not_lt.mpr (by omega)), if_neg (not_lt.mpr (by omega)), if_pos (by omega)]

theorem resolve_at_9 (y doy : Int)
    (hc1 : 29 ≤ cheshvanLen y) (hc2 : cheshvanLen y ≤ 30)
    (hk1 : 29 ≤ kislevLen y) (hk2 : kislevLen y ≤ 30)
    (hsum : cheshvanLen y + kislevLen y + 295 ≤ yearLen y)
    (h1 : yearLen y - 147 ≤ doy) (h2 : doy < yearLen y - 118) :
    resolve y doy =
      { year := y, month := 9, day := doy - (yearLen y - 147) + 1, isLeapYear := is_leap_year y } := by
  simp only [resolve, monthStartDoy]
  norm_num
  rw [if_neg (not_lt.mpr (by omega)), if_neg (not_lt.mpr (by omega)), if_neg (not_lt.mpr (by omega)), if_neg (not_lt.mpr (by omega)), if_neg (not_lt.mpr (by omega)), if_neg (not_lt.mpr (by omega)), if_neg (not_lt.mpr (by omega)), if_neg (not_lt.mpr (by omega)), if_pos (by omega)]

theorem resolve_at_10 (y doy : Int)
    (hc1 : 29 ≤ cheshvanLen y) (hc2 : cheshvanLen y ≤ 30)
    (hk1 : 29 ≤ kislevLen y) (hk2 : kislevLen y ≤ 30)
    (hsum : cheshvanLen y + kislevLen y + 295 ≤ yearLen y)
    (h1 : yearLen y - 118 ≤ doy) (h2 : doy < yearLen y - 88) :
    resolve y doy =
      { year := y, month := 10, day := doy - (yearLen y - 118) + 1, isLeapYear := is_leap_year y } := by
  simp only [resolve, monthStartDoy]
  norm_num
  rw [if_neg (not_lt.mpr (by omega)), if_neg (not_lt.mpr (by omega)), if_neg (not_lt.mpr (by omega)), if_neg (not_lt.mpr (by omega)), if_neg (not_lt.mpr (by omega)), if_neg (not_lt.mpr (by omega)), if_neg (not_lt.mpr (by omega)), if_neg (not_lt.mpr (by omega)), if_neg (not_lt.mpr (by omega)), if_pos (by omega)]

theorem resolve_at_11 (y doy : Int)
    (hc1 : 29 ≤ cheshvanLen y) (hc2 : cheshvanLen y ≤ 30)
    (hk1 : 29 ≤ kislevLen y) (hk2 : kislevLen y ≤ 30)
    (hsum : cheshvanLen y + kislevLen y + 295 ≤ yearLen y)
    (h1 : yearLen y - 88 ≤ doy) (h2 : doy < yearLen y - 59) :
    resolve y doy =
      { year := y, month := 11, day := doy - (yearLen y - 88) + 1, isLeapYear := is_leap_year y } := by
  simp only [resolve, monthStartDoy]
  norm_num
  rw [if_neg (not_lt.mpr (by omega)), if_neg (not_lt.mpr (by omega)), if_neg (not_lt.mpr (by omega)), if_neg (not_lt.mpr (by omega)), if_neg (not_lt.mpr (by omega)), if_neg (not_lt.mpr (by omega)), if_neg (not_lt.mpr (by omega)), if_neg (not_lt.mpr (by omega)), if_neg (not_lt.mpr (by omega)), if_neg (not_lt.mpr (by omega)), if_pos (by omega)]

theorem resolve_at_12 (y doy : Int)
    (hc1 : 29 ≤ cheshvanLen y) (hc2 : cheshvanLen y ≤ 30)
    (hk1 : 29 ≤ kislevLen y) (hk2 : kislevLen y ≤ 30)
    (hsum : cheshvanLen y + kislevLen y + 295 ≤ yearLen y)
    (h1 : yearLen y - 59 ≤ doy) (h2 : doy < yearLen y - 29) :
    resolve y doy =
      { year := y, month := 12, day := doy - (yearLen y - 59) + 1, isLeapYear := is_leap_year y } := by
  simp only [resolve, monthStartDoy]
  norm_num
  rw [if_neg (not_lt.mpr (by omega)), if_neg (not_lt.mpr (by omega)), if_neg (not_lt.mpr (by omega)), if_neg (not_lt.mpr (by omega)), if_neg (not_lt.mpr (by omega)), if_neg (not_lt.mpr (by omega)), if_neg (not_lt.mpr (by omega)), if_neg (not_lt.mpr (by omega)), if_neg (not_lt.mpr (by omega)), if_neg (not_lt.mpr (by omega)), if_neg (not_lt.mpr (by omega)), if_pos (by omega)]

theorem resolve_at_13 (y doy : Int)
    (hc1 : 29 ≤ cheshvanLen y) (hc2 : cheshvanLen y ≤ 30)
    (hk1 : 29 ≤ kislevLen y) (hk2 : kislevLen y ≤ 30)
    (hsum : cheshvanLen y + kislevLen y + 295 ≤ yearLen y)
    (h1 : yearLen y - 29 ≤ doy) (h2 : doy < yearLen y) :
    resolve y doy =
      { year := y, month := 13, day := doy - (yearLen y - 29) + 1, isLeapYear := is_leap_year y } := by
  simp only [resolve, monthStartDoy]
  norm_num
  rw [if_neg (not_lt.mpr (by omega)), if_neg (not_lt.mpr (by omega)), if_neg (not_lt.mpr (by omega)), if_neg (not_lt.mpr (by omega)), if_neg (not_lt.mpr (by omega)), if_neg (not_lt.mpr (by omega)), if_neg (not_lt.mpr (by omega)), if_neg (not_lt.mpr (by omega)), if_neg (not_lt.mpr (by omega)), if_neg (not_lt.mpr (by omega)), if_neg (not_lt.mpr (by omega)), if_neg (not_lt.mpr (by omega))]

theorem resolve_at_4 (y doy : Int)
    (hc1 : 29 ≤ cheshvanLen y) (hc2 : cheshvanLen y ≤ 30)
    (hk1 : 29 ≤ kislevLen y) (hk2 : kislevLen y ≤ 30)
    (h1 : 30 + cheshvanLen y + kislevLen y ≤ doy) (h2 : doy < 30 + cheshvanLen y + kislevLen y + 29) :
    resolve y doy =
      { year := y, month := 4, day := doy - (30 + cheshvanLen y + kislevLen y) + 1, isLeapYear := is_leap_year y } := by
  simp only [resolve, monthStartDoy]
  norm_num
  rw [if_neg (not_lt.mpr (by omega)), if_neg (not_lt.mpr (by omega)), if_neg (not_lt.mpr (by omega)), if_pos (by omega)]

theorem resolve_at_5 (y doy : Int)
    (hc1 : 29 ≤ cheshvanLen y) (hc2 : cheshvanLen y ≤ 30)
    (hk1 : 29 ≤ kislevLen y) (hk2 : kislevLen y ≤ 30)
    (h1 : 30 + cheshvanLen y + kislevLen y + 29 ≤ doy) (h2 : doy < 30 + cheshvanLen y + kislevLen y + 59) :
    resolve y doy =
      { year := y, month := 5, day := doy - (30 + cheshvanLen y + kislevLen y + 29) + 1, isLeapYear := is_leap_year y } := by
  simp only [resolve, monthStartDoy]
  norm_num
  rw [if_neg (not_lt.mpr (by omega)), if_neg (not_lt.mpr (by omega)), if_neg (not_lt.mpr (by omega)), if_neg (not_lt.mpr (by omega)), if_pos (by omega)]

theorem resolve_at_6 (y doy : Int)
    (hc1 : 29 ≤ cheshvanLen y) (hc2 : cheshvanLen y ≤ 30)
    (hk1 : 29 ≤ kislevLen y) (hk2 : kislevLen y ≤ 30)
    (hsum : cheshvanLen y + kislevLen y + 295 ≤ yearLen y)
    (h1 : 30 + cheshvanLen y + kislevLen y + 59 ≤ doy) (h2 : doy < yearLen y - 206) :
    resolve y doy =
      { year := y, month := 6, day := doy - (30 + cheshvanLen y + kislevLen y + 59) + 1, isLeapYear := is_leap_year y } := by
  simp only [resolve, monthStartDoy]
  norm_num
  rw [if_neg (not_lt.mpr (by omega)), if_neg (not_lt.mpr (by omega)), if_neg (not_lt.mpr (by omega)), if_neg (not_lt.mpr (by omega)), if_neg (not_lt.mpr (by omega)), if_pos (by omega)]

set_option maxHeartbeats 2000000 in
/-- Master correctness theorem for `from_sdn`: on the day `inputDay` of the
true year `Y` (the unique year whose Tishrei-1 window contains it), the
conversion returns exactly the reference resolution of that day. -/
theorem from_sdn_master (Y inputDay : Int) (hY : 1 ≤ Y)
    (hlo : tishrei1Day Y ≤ inputDay) (hhi : inputDay < tishrei1Day (Y + 1)) :
    JewishDate.from_sdn (inputDay + JEWISH_SDN_OFFSET) =
      .ok (resolve Y (inputDay - tishrei1Day Y)) := by
  -- the input day is at least 1
  have hT1 : tishrei1Day 1 = 1 := tishrei1Day_one
  have hmono1Y := tishrei1Day_mono 1 Y hY
  have hin1 : 1 ≤ inputDay := by omega
  -- search postcondition
  obtain ⟨mc, my, m, hseq, hmc, hmy0, hmy1, hmn, hmt, hU, hUs, hL⟩ :=
    find_nearby_spec inputDay (by omega)
  -- abbreviations
  set Ys := 19 * mc + my + 1 with hYs
  have hYs1 : 1 ≤ Ys := by omega
  have ht1eq : get_first_day_of_year my m = tishrei1Day Ys :=
    gfd_eq_tishrei1Day my Ys m hmn hmt (by omega)
  -- deltas
  have hdY := tishrei1Day_delta Y
  have hdY1 := tishrei1Day_delta (Y + 1)
  have hdYs := tishrei1Day_delta Ys
  have hdYsp := tishrei1Day_delta (Ys + 1)
  have hdYsm := tishrei1Day_delta (Ys - 1)
  have hgapYs : moladDay Ys + 354 ≤ moladDay (Ys + 1) ∧
      moladDay (Ys + 1) ≤ moladDay Ys + 384 := by
    have := moladDay_step Ys
    omega
  have hgapYsm : moladDay (Ys - 1) + 354 ≤ moladDay Ys ∧
      moladDay Ys ≤ moladDay (Ys - 1) + 384 := by
    have h := moladDay_step (Ys - 1)
    have he : Ys - 1 + 1 = Ys := by ring
    rw [he] at h
    exact h
  -- unfold from_sdn and dispatch the epoch guard
  simp only [JewishDate.from_sdn, add_sub_cancel_right]
  rw [if_neg (by omega : ¬ inputDay + JEWISH_SDN_OFFSET ≤ JEWISH_SDN_OFFSET)]
  rw [hseq]
  dsimp only
  rw [ht1eq]
  by_cases hcur : inputDay ≥ tishrei1Day Ys
  · -- Tishrei 1 of year Ys is at or before the input day: current-year branch
    have hhiYs : inputDay < tishrei1Day (Ys + 1) := by omega
    have hYeq : Y = Ys := by
      rcases lt_trichotomy Y Ys with hlt | heq | hgt
      · exfalso
        have := tishrei1Day_mono (Y + 1) Ys (by omega)
        omega
      · exact heq
      · exfalso
        have := tishrei1Day_mono (Ys + 1) Y (by omega)
        omega
    have hTeq : tishrei1Day Y = tishrei1Day Ys := by rw [hYeq]
    obtain ⟨hc1, hc2, hk1, hk2, hnl, hlp⟩ := month_sum Y
    have hup : inputDay ≤ moladDay Ys + 75 := by omega
    rw [if_pos hcur]
    rw [show mc * 19 + my + 1 = Y from by omega]
    have hms2 : monthStartDoy Y 2 = 30 := by norm_num [monthStartDoy]
    have hms3 : monthStartDoy Y 3 = 30 + cheshvanLen Y := by norm_num [monthStartDoy]
    by_cases h59 : inputDay < tishrei1Day Ys + 59
    · rw [if_pos h59]
      by_cases h30 : inputDay < tishrei1Day Ys + 30
      · rw [if_pos h30, make_ok Y 1 (inputDay - tishrei1Day Ys + 1) (by omega) (by omega)
          (by omega) (by omega) (by omega)]
        simp only [resolve]
        rw [if_pos (by omega)]
        simp only [Except.ok.injEq, JewishDate.mk.injEq, eq_self_iff_true, and_true, true_and]
        omega
      · rw [if_neg h30, make_ok Y 2 (inputDay - tishrei1Day Ys - 29) (by omega) (by omega)
          (by omega) (by omega) (by omega)]
        simp only [resolve]
        rw [if_neg (not_lt.mpr (by omega)), if_pos (by omega)]
        simp only [Except.ok.injEq, JewishDate.mk.injEq, eq_self_iff_true, and_true, true_and]
        omega
    · rw [if_neg h59]
      have hmt2 : (m.add_lunar_cycles (months_in_metonic_year my)).total =
          moladTotal (Ys + 1) := by
        simp only [Molad.add_lunar_cycles]
        rw [(m.add_halakim_total (HALAKIM_PER_LUNAR_CYCLE * months_in_metonic_year my)).1, hmt]
        have hs := moladTotal_succ Ys
        rw [show (Ys - 1) % 19 = my from by omega] at hs
        omega
      have hmn2 : (m.add_lunar_cycles (months_in_metonic_year my)).normalized := by
        simpa only [Molad.add_lunar_cycles] using
          (m.add_halakim_total (HALAKIM_PER_LUNAR_CYCLE * months_in_metonic_year my)).2
      rw [gfd_eq_tishrei1Day ((my + 1) % 19) (Ys + 1)
        (m.add_lunar_cycles (months_in_metonic_year my)) hmn2 hmt2 (by omega)]
      rw [show tishrei1Day Ys = tishrei1Day Y from hTeq.symm,
        show Ys + 1 = Y + 1 from by omega]
      exact from_sdn_tail_spec Y inputDay (by omega) (by omega) (by omega)
  · -- the input day is before Tishrei 1 of year Ys: prior-year branch
    rw [if_neg hcur]
    have hL2 : moladDay (Ys - 1) ≤ inputDay - 72 := by
      rw [show Ys - 1 = 19 * mc + my from by omega]
      exact hL
    have hYeq : Y = Ys - 1 := by
      rcases lt_trichotomy Y (Ys - 1) with hlt | heq | hgt
      · exfalso
        have := tishrei1Day_mono (Y + 1) (Ys - 1) (by omega)
        omega
      · exact heq
      · exfalso
        have := tishrei1Day_mono Ys Y (by omega)
        omega
    have hTeq : tishrei1Day Y = tishrei1Day (Ys - 1) := by rw [hYeq]
    have hTnext : tishrei1Day (Y + 1) = tishrei1Day Ys := by
      rw [show Y + 1 = Ys from by omega]
    obtain ⟨hc1, hc2, hk1, hk2, hnl, hlp⟩ := month_sum Y
    have hylb := yearLen_bounds Y
    have hyl353 : (353 : Int) ≤ yearLen Y ∧ yearLen Y ≤ 385 := by
      cases hb : is_leap_year Y
      · have := hylb.1 hb; omega
      · have := hylb.2 hb; omega
    have hylen_def : yearLen Y = tishrei1Day (Y + 1) - tishrei1Day Y := rfl
    have hdoylo : tishrei1Day Y + 70 ≤ inputDay := by omega
    have hdoyhi : inputDay < tishrei1Day (Y + 1) := by omega
    rw [show mc * 19 + my = Y from by omega]
    -- express the remaining goal purely in terms of year Y, then discard the
    -- search-related context so the month navigation stays small
    have hmday : m.day = moladDay Ys := (molad_day_eq m Ys hmn hmt).1
    have hMYs : moladDay Ys = moladDay (Y + 1) := by
      rw [show Y + 1 = Ys from by omega]
    rw [hmday, hMYs, show tishrei1Day Ys = tishrei1Day (Y + 1) from hTnext.symm]
    clear hmday hMYs hcur hL2 hU hUs hL hmt ht1eq hdYs hdYsp hdYsm hgapYs hgapYsm
    clear hT1 hmono1Y hin1 hlo hhi hylb hTeq hYs1 hYeq hTnext hmn hseq
    clear_value Ys
    clear hYs Ys m hmc hmy0 hmy1 mc my hdY hdY1
    have hsum_lo : cheshvanLen Y + kislevLen Y + 295 ≤ yearLen Y := by
      cases hb : is_leap_year Y
      · have := hnl hb; omega
      · have := hlp hb; omega
    have hsum_hi : yearLen Y ≤ cheshvanLen Y + kislevLen Y + 325 := by
      cases hb : is_leap_year Y
      · have := hnl hb; omega
      · have := hlp hb; omega
    by_cases hreg : inputDay ≥ tishrei1Day (Y + 1) - 177
    · rw [if_pos hreg]
      by_cases hm13 : inputDay > tishrei1Day (Y + 1) - 30
      · rw [if_pos hm13, make_ok Y 13 (inputDay - tishrei1Day (Y + 1) + 30) (by omega) (by omega)
          (by omega) (by omega) (by omega)]
        rw [resolve_at_13 Y (inputDay - tishrei1Day Y) hc1 hc2 hk1 hk2 hsum_lo (by omega) (by omega)]
        simp only [Except.ok.injEq, JewishDate.mk.injEq, eq_self_iff_true, and_true, true_and]
        omega
      · rw [if_neg hm13]
        by_cases hm12 : inputDay > tishrei1Day (Y + 1) - 60
        · rw [if_pos hm12, make_ok Y 12 (inputDay - tishrei1Day (Y + 1) + 60) (by omega) (by omega)
            (by omega) (by omega) (by omega)]
          rw [resolve_at_12 Y (inputDay - tishrei1Day Y) hc1 hc2 hk1 hk2 hsum_lo (by omega) (by omega)]
          simp only [Except.ok.injEq, JewishDate.mk.injEq, eq_self_iff_true, and_true, true_and]
          omega
        · rw [if_neg hm12]
          by_cases hm11 : inputDay > tishrei1Day (Y + 1) - 89
          · rw [if_pos hm11, make_ok Y 11 (inputDay - tishrei1Day (Y + 1) + 89) (by omega) (by omega)
              (by omega) (by omega) (by omega)]
            rw [resolve_at_11 Y (inputDay - tishrei1Day Y) hc1 hc2 hk1 hk2 hsum_lo (by omega) (by omega)]
            simp only [Except.ok.injEq, JewishDate.mk.injEq, eq_self_iff_true, and_true,
              true_and]
            omega
          · rw [if_neg hm11]
            by_cases hm10 : inputDay > tishrei1Day (Y + 1) - 119
            · rw [if_pos hm10, make_ok Y 10 (inputDay - tishrei1Day (Y + 1) + 119) (by omega)
                (by omega) (by omega) (by omega) (by omega)]
              rw [resolve_at_10 Y (inputDay - tishrei1Day Y) hc1 hc2 hk1 hk2 hsum_lo (by omega) (by omega)]
              simp only [Except.ok.injEq, JewishDate.mk.injEq, eq_self_iff_true, and_true,
                true_and]
              omega
            · rw [if_neg hm10]
              by_cases hm9 : inputDay > tishrei1Day (Y + 1) - 148
              · rw [if_pos hm9, make_ok Y 9 (inputDay - tishrei1Day (Y + 1) + 148) (by omega)
                  (by omega) (by omega) (by omega) (by omega)]
                rw [resolve_at_9 Y (inputDay - tishrei1Day Y) hc1 hc2 hk1 hk2 hsum_lo (by omega) (by omega)]
                simp only [Except.ok.injEq, JewishDate.mk.injEq, eq_self_iff_true, and_true,
                  true_and]
                omega
              · rw [if_neg hm9]
                by_cases hm8 : inputDay > tishrei1Day (Y + 1) - 178
                · rw [if_pos hm8, make_ok Y 8 (inputDay - tishrei1Day (Y + 1) + 178) (by omega)
                    (by omega) (by omega) (by omega) (by omega)]
                  rw [resolve_at_8 Y (inputDay - tishrei1Day Y) hc1 hc2 hk1 hk2 hsum_lo (by omega) (by omega)]
                  simp only [Except.ok.injEq, JewishDate.mk.injEq, eq_self_iff_true, and_true,
                    true_and]
                  omega
                · exfalso
                  omega
    · rw [if_neg hreg]
      by_cases hm7 : inputDay - tishrei1Day (Y + 1) + 207 > 0
      · rw [if_pos hm7, make_ok Y 7 (inputDay - tishrei1Day (Y + 1) + 207) (by omega) (by omega)
          (by omega) (by omega) (by omega)]
        rw [resolve_at_7 Y (inputDay - tishrei1Day Y) hc1 hc2 hk1 hk2 hsum_lo (by omega) (by omega)]
        simp only [Except.ok.injEq, JewishDate.mk.injEq, eq_self_iff_true, and_true, true_and]
        omega
      · rw [if_neg hm7]
        cases hlpc : is_leap_year Y
        · -- common year: no Adar I, the slot for month 6 is empty
          have hnl2 := hnl hlpc
          simp only [Bool.false_eq_true, false_and, if_false]
          by_cases hm5 : inputDay - tishrei1Day (Y + 1) + 207 + 30 > 0
          · rw [if_pos hm5, make_ok Y 5 (inputDay - tishrei1Day (Y + 1) + 207 + 30) (by omega)
              (by omega) (by omega) (by omega) (by omega)]
            rw [resolve_at_5 Y (inputDay - tishrei1Day Y) hc1 hc2 hk1 hk2 (by omega) (by omega)]
            simp only [Except.ok.injEq, JewishDate.mk.injEq, eq_self_iff_true, and_true,
              true_and]
            omega
          · rw [if_neg hm5]
            by_cases hm4 : inputDay - tishrei1Day (Y + 1) + 207 + 30 + 29 > 0
            · rw [if_pos hm4, make_ok Y 4 (inputDay - tishrei1Day (Y + 1) + 207 + 30 + 29)
                (by omega) (by omega) (by omega) (by omega) (by omega)]
              rw [resolve_at_4 Y (inputDay - tishrei1Day Y) hc1 hc2 hk1 hk2 (by omega) (by omega)]
              simp only [Except.ok.injEq, JewishDate.mk.injEq, eq_self_iff_true, and_true,
                true_and]
              omega
            · rw [if_neg hm4]
              -- deep fall-through: the year length is needed, so re-search
              have h355 : (355 : Int) ≤ moladDay (Y + 1) := by
                have h2 : moladDay 2 = 355 := moladDay_two
                have := moladDay_mono 2 (Y + 1) (by omega)
                omega
              obtain ⟨mc2, my2, m2, hseq2, hmc2, hmy20, hmy21, hmn2, hmt2, hU2, hUs2, hL2b⟩ :=
                find_nearby_spec (moladDay (Y + 1) - 365) (by omega)
              rw [hseq2]
              dsimp only
              have hgapY : moladDay Y + 354 ≤ moladDay (Y + 1) ∧
                  moladDay (Y + 1) ≤ moladDay Y + 384 := moladDay_step Y
              have hY2 : 19 * mc2 + my2 + 1 = Y := by
                rcases lt_trichotomy (19 * mc2 + my2 + 1) Y with hlt | heq | hgt
                · exfalso
                  have hmm1 := moladDay_mono (19 * mc2 + my2 + 1) (Y - 1) (by omega)
                  have hmm2 := moladDay_mono (Y - 1) (Y + 1) (by omega)
                  omega
                · exact heq
                · exfalso
                  have hmm3 := moladDay_mono Y (19 * mc2 + my2) (by omega)
                  omega
              rw [hY2] at hmt2
              have ht1b : get_first_day_of_year my2 m2 = tishrei1Day Y :=
                gfd_eq_tishrei1Day my2 Y m2 hmn2 hmt2 (by omega)
              rw [ht1b]
              exact from_sdn_tail_spec Y inputDay (by omega) (by omega) (by omega)
        · -- leap year: Adar I exists
          have hlp2 := hlp hlpc
          simp only [eq_self_iff_true, true_and, if_true]
          by_cases hm6 : inputDay - tishrei1Day (Y + 1) + 207 + 30 > 0
          · rw [if_pos hm6, make_ok Y 6 (inputDay - tishrei1Day (Y + 1) + 207 + 30) (by omega)
              (by omega) (by omega) (by omega) (by omega)]
            rw [resolve_at_6 Y (inputDay - tishrei1Day Y) hc1 hc2 hk1 hk2 hsum_lo (by omega) (by omega)]
            simp only [Except.ok.injEq, JewishDate.mk.injEq, eq_self_iff_true, and_true,
              true_and]
            omega
          · rw [if_neg hm6]
            by_cases hm5 : inputDay - tishrei1Day (Y + 1) + 207 + 30 + 30 > 0
            · rw [if_pos hm5, make_ok Y 5 (inputDay - tishrei1Day (Y + 1) + 207 + 30 + 30)
                (by omega) (by omega) (by omega) (by omega) (by omega)]
              rw [resolve_at_5 Y (inputDay - tishrei1Day Y) hc1 hc2 hk1 hk2 (by omega) (by omega)]
              simp only [Except.ok.injEq, JewishDate.mk.injEq, eq_self_iff_true, and_true,
                true_and]
              omega
            · rw [if_neg hm5]
              by_cases hm4 : inputDay - tishrei1Day (Y + 1) + 207 + 30 + 30 + 29 > 0
              · rw [if_pos hm4, make_ok Y 4 (inputDay - tishrei1Day (Y + 1) + 207 + 30 + 30 + 29)
                  (by omega) (by omega) (by omega) (by omega) (by omega)]
                rw [resolve_at_4 Y (inputDay - tishrei1Day Y) hc1 hc2 hk1 hk2 (by omega) (by omega)]
                simp only [Except.ok.injEq, JewishDate.mk.injEq, eq_self_iff_true, and_true,
                  true_and]
                omega
              · rw [if_neg hm4]
                have h355 : (355 : Int) ≤ moladDay (Y + 1) := by
                  have h2 : moladDay 2 = 355 := moladDay_two
                  have := moladDay_mono 2 (Y + 1) (by omega)
                  omega
                obtain ⟨mc2, my2, m2, hseq2, hmc2, hmy20, hmy21, hmn2, hmt2, hU2, hUs2, hL2b⟩ :=
                  find_nearby_spec (moladDay (Y + 1) - 365) (by omega)
                rw [hseq2]
                dsimp only
                have hgapY : moladDay Y + 354 ≤ moladDay (Y + 1) ∧
                    moladDay (Y + 1) ≤ moladDay Y + 384 := moladDay_step Y
                have hY2 : 19 * mc2 + my2 + 1 = Y := by
                  rcases lt_trichotomy (19 * mc2 + my2 + 1) Y with hlt | heq | hgt
                  · exfalso
                    have hmm1 := moladDay_mono (19 * mc2 + my2 + 1) (Y - 1) (by omega)
                    have hmm2 := moladDay_mono (Y - 1) (Y + 1) (by omega)
                    omega
                  · exact heq
                  · exfalso
                    have hmm3 := moladDay_mono Y (19 * mc2 + my2) (by omega)
                    omega
                rw [hY2] at hmt2
                have ht1b : get_first_day_of_year my2 m2 = tishrei1Day Y :=
                  gfd_eq_tishrei1Day my2 Y m2 hmn2 hmt2 (by omega)
                rw [ht1b]
                exact from_sdn_tail_spec Y inputDay (by omega) (by omega) (by omega)


/-- Closed form of `to_sdn`: for any structurally valid date carrying the
correct leap flag, the SDN is the year start plus the month start plus the
day, for every month slot 1-13 (month 6 in a common year shares the slot of
month 7, exactly as the offset table does). -/
theorem to_sdn_spec (y mo d : Int) (hy : 1 ≤ y) (hmo1 : 1 ≤ mo) (hmo13 : mo ≤ 13)
    (hd1 : 1 ≤ d) (hd30 : d ≤ 30) :
    JewishDate.to_sdn { year := y, month := mo, day := d, isLeapYear := is_leap_year y } =
      .ok (tishrei1Day y + monthStartDoy y mo + d - 1 + JEWISH_SDN_OFFSET) := by
  obtain ⟨hc1, hc2, hk1, hk2, hnl, hlp⟩ := month_sum y
  have hylen_def : yearLen y = tishrei1Day (y + 1) - tishrei1Day y := rfl
  simp only [JewishDate.to_sdn]
  rw [if_neg (by omega)]
  rw [find_start_of_year_spec y]
  dsimp only
  have hmt2 : ((moladOfYear y).add_lunar_cycles (months_in_metonic_year ((y - 1) % 19))).total
      = moladTotal (y + 1) := by
    simp only [Molad.add_lunar_cycles]
    rw [((moladOfYear y).add_halakim_total
      (HALAKIM_PER_LUNAR_CYCLE * months_in_metonic_year ((y - 1) % 19))).1]
    have hbase : (moladOfYear y).total = moladTotal y := by
      simp only [moladOfYear, Molad.total, moladDay, moladHal, HALAKIM_PER_DAY]
      omega
    rw [hbase]
    have hs := moladTotal_succ y
    omega
  have hmn2 : ((moladOfYear y).add_lunar_cycles
      (months_in_metonic_year ((y - 1) % 19))).normalized := by
    simpa only [Molad.add_lunar_cycles] using
      ((moladOfYear y).add_halakim_total
        (HALAKIM_PER_LUNAR_CYCLE * months_in_metonic_year ((y - 1) % 19))).2
  rw [gfd_eq_tishrei1Day (((y - 1) % 19 + 1) % 19) (y + 1)
    ((moladOfYear y).add_lunar_cycles (months_in_metonic_year ((y - 1) % 19))) hmn2 hmt2
    (by omega)]
  interval_cases mo
  · norm_num [month_offset, monthStartDoy]
    try simp only [Except.ok.injEq]
    try ring
    try omega
  · norm_num [month_offset, monthStartDoy]
    try simp only [Except.ok.injEq]
    try ring
    try omega
  · rw [if_neg (by norm_num), if_pos (by norm_num)]
    rw [show tishrei1Day (y + 1) - tishrei1Day y = yearLen y from rfl]
    by_cases hcc : yearLen y = 355 ∨ yearLen y = 385
    · rw [if_pos hcc]
      have hclv : cheshvanLen y = 30 := by simp [cheshvanLen, hcc]
      norm_num [monthStartDoy]
      try simp only [Except.ok.injEq]
      try omega
    · rw [if_neg hcc]
      have hclv : cheshvanLen y = 29 := by simp [cheshvanLen, hcc]
      norm_num [monthStartDoy]
      try simp only [Except.ok.injEq]
      try omega
  · cases hl : is_leap_year y
    · have hnl2 := hnl hl
      norm_num [month_offset, monthStartDoy, hl]
      try simp only [Except.ok.injEq]
      try omega
    · have hlp2 := hlp hl
      norm_num [month_offset, monthStartDoy, hl]
      try simp only [Except.ok.injEq]
      try omega
  · cases hl : is_leap_year y
    · have hnl2 := hnl hl
      norm_num [month_offset, monthStartDoy, hl]
      try simp only [Except.ok.injEq]
      try omega
    · have hlp2 := hlp hl
      norm_num [month_offset, monthStartDoy, hl]
      try simp only [Except.ok.injEq]
      try omega
  · cases hl : is_leap_year y
    · have hnl2 := hnl hl
      norm_num [month_offset, monthStartDoy, hl]
      try simp only [Except.ok.injEq]
      try omega
    · have hlp2 := hlp hl
      norm_num [month_offset, monthStartDoy, hl]
      try simp only [Except.ok.injEq]
      try omega
  · norm_num [month_offset, monthStartDoy]
    try simp only [Except.ok.injEq]
    try omega
  · norm_num [month_offset, monthStartDoy]
    try simp only [Except.ok.injEq]
    try omega
  · norm_num [month_offset, monthStartDoy]
    try simp only [Except.ok.injEq]
    try omega
  · norm_num [month_offset, monthStartDoy]
    try simp only [Except.ok.injEq]
    try omega
  · norm_num [month_offset, monthStartDoy]
    try simp only [Except.ok.injEq]
    try omega
  · norm_num [month_offset, monthStartDoy]
    try simp only [Except.ok.injEq]
    try omega
  · norm_num [month_offset, monthStartDoy]
    try simp only [Except.ok.injEq]
    try omega

theorem resolve_at_1 (y doy : Int) (h1 : 0 ≤ doy) (h2 : doy < 30) :
    resolve y doy = { year := y, month := 1, day := doy + 1, isLeapYear := is_leap_year y } := by
  have hms2 : monthStartDoy y 2 = 30 := by norm_num [monthStartDoy]
  simp only [resolve]
  rw [hms2, if_pos (by omega)]

theorem resolve_at_2 (y doy : Int)
    (h1 : 30 ≤ doy) (h2 : doy < 30 + cheshvanLen y) :
    resolve y doy =
      { year := y, month := 2, day := doy - 29, isLeapYear := is_leap_year y } := by
  have hms2 : monthStartDoy y 2 = 30 := by norm_num [monthStartDoy]
  have hms3 : monthStartDoy y 3 = 30 + cheshvanLen y := by norm_num [monthStartDoy]
  simp only [resolve]
  rw [hms2, hms3, if_neg (not_lt.mpr (by omega)), if_pos (by omega)]
  simp only [JewishDate.mk.injEq, eq_self_iff_true, and_true, true_and]
  omega

theorem resolve_at_3 (y doy : Int) (hc1 : 29 ≤ cheshvanLen y)
    (h1 : 30 + cheshvanLen y ≤ doy) (h2 : doy < 30 + cheshvanLen y + kislevLen y) :
    resolve y doy =
      { year := y, month := 3, day := doy - 29 - cheshvanLen y, isLeapYear := is_leap_year y } := by
  have hms2 : monthStartDoy y 2 = 30 := by norm_num [monthStartDoy]
  have hms3 : monthStartDoy y 3 = 30 + cheshvanLen y := by norm_num [monthStartDoy]
  have hms4 : monthStartDoy y 4 = 30 + cheshvanLen y + kislevLen y := by
    norm_num [monthStartDoy]
  simp only [resolve]
  rw [hms2, hms3, hms4, if_neg (not_lt.mpr (by omega)), if_neg (not_lt.mpr (by omega)), if_pos (by omega)]
  simp only [JewishDate.mk.injEq, eq_self_iff_true, and_true, true_and]
  omega

/-- Every day number at least 1 falls inside the Tishrei-1 window of a year;
this provides the `Y` required by the master theorem. -/
theorem trueYear_exists (inputDay : Int) (h : 1 ≤ inputDay) :
    ∃ Y : Int, 1 ≤ Y ∧ tishrei1Day Y ≤ inputDay ∧ inputDay < tishrei1Day (Y + 1) := by
  obtain ⟨n, hn⟩ : ∃ n : Nat, inputDay = 1 + n := ⟨(inputDay - 1).toNat, by omega⟩
  subst hn
  clear h
  induction n with
  | zero =>
    refine ⟨1, le_refl 1, ?_, ?_⟩
    · rw [tishrei1Day_one]
      push_cast
      try omega
    · have hm := tishrei1Day_mono 1 2 (by norm_num)
      rw [tishrei1Day_one] at hm
      rw [show (1 : Int) + 1 = 2 from by norm_num]
      push_cast
      omega
  | succ k ih =>
    obtain ⟨Y, hY1, hY2, hY3⟩ := ih
    by_cases hc : (1 : Int) + (k + 1 : Nat) < tishrei1Day (Y + 1)
    · refine ⟨Y, hY1, ?_, hc⟩
      push_cast at hY2 ⊢
      omega
    · refine ⟨Y + 1, by omega, ?_, ?_⟩
      · push_cast at hc ⊢
        omega
      · have hm := tishrei1Day_mono (Y + 1) (Y + 1 + 1) (by omega)
        push_cast at hc hY3 ⊢
        omega

/-- The reference resolution always produces a structurally valid date. -/
theorem resolve_bounds (y doy : Int) (h0 : 0 ≤ doy) (h1 : doy < yearLen y) :
    (resolve y doy).year = y ∧ (resolve y doy).isLeapYear = is_leap_year y ∧
      1 ≤ (resolve y doy).month ∧ (resolve y doy).month ≤ 13 ∧
      1 ≤ (resolve y doy).day ∧ (resolve y doy).day ≤ 30 := by
  obtain ⟨hc1, hc2, hk1, hk2, hnl, hlp⟩ := month_sum y
  have hylb := yearLen_bounds y
  have hyl : (353 : Int) ≤ yearLen y ∧ yearLen y ≤ 385 := by
    cases hb : is_leap_year y
    · have := hylb.1 hb; omega
    · have := hylb.2 hb; omega
  have hsum_lo : cheshvanLen y + kislevLen y + 295 ≤ yearLen y := by
    cases hb : is_leap_year y
    · have := hnl hb; omega
    · have := hlp hb; omega
  have hsum_hi : yearLen y ≤ cheshvanLen y + kislevLen y + 325 := by
    cases hb : is_leap_year y
    · have := hnl hb; omega
    · have := hlp hb; omega
  by_cases b2 : doy < 30
  · rw [resolve_at_1 y doy h0 b2]
    refine ⟨rfl, rfl, by norm_num, by norm_num, ?_, ?_⟩ <;> dsimp only <;> omega
  · by_cases b3 : doy < 30 + cheshvanLen y
    · rw [resolve_at_2 y doy (by omega) b3]
      refine ⟨rfl, rfl, by norm_num, by norm_num, ?_, ?_⟩ <;> dsimp only <;> omega
    · by_cases b4 : doy < 30 + cheshvanLen y + kislevLen y
      · rw [resolve_at_3 y doy hc1 (by omega) b4]
        refine ⟨rfl, rfl, by norm_num, by norm_num, ?_, ?_⟩ <;> dsimp only <;> omega
      · by_cases b5 : doy < 30 + cheshvanLen y + kislevLen y + 29
        · rw [resolve_at_4 y doy hc1 hc2 hk1 hk2 (by omega) b5]
          refine ⟨rfl, rfl, by norm_num, by norm_num, ?_, ?_⟩ <;> dsimp only <;> omega
        · by_cases b6 : doy < 30 + cheshvanLen y + kislevLen y + 59
          · rw [resolve_at_5 y doy hc1 hc2 hk1 hk2 (by omega) b6]
            refine ⟨rfl, rfl, by norm_num, by norm_num, ?_, ?_⟩ <;> dsimp only <;> omega
          · by_cases b7 : doy < yearLen y - 206
            · rw [resolve_at_6 y doy hc1 hc2 hk1 hk2 hsum_lo (by omega) b7]
              refine ⟨rfl, rfl, by norm_num, by norm_num, ?_, ?_⟩ <;> dsimp only <;> omega
            · by_cases b8 : doy < yearLen y - 177
              · rw [resolve_at_7 y doy hc1 hc2 hk1 hk2 hsum_lo (by omega) b8]
                refine ⟨rfl, rfl, by norm_num, by norm_num, ?_, ?_⟩ <;> dsimp only <;> omega
              · by_cases b9 : doy < yearLen y - 147
                · rw [resolve_at_8 y doy hc1 hc2 hk1 hk2 hsum_lo (by omega) b9]
                  refine ⟨rfl, rfl, by norm_num, by norm_num, ?_, ?_⟩ <;> dsimp only <;> omega
                · by_cases b10 : doy < yearLen y - 118
                  · rw [resolve_at_9 y doy hc1 hc2 hk1 hk2 hsum_lo (by omega) b10]
                    refine ⟨rfl, rfl, by norm_num, by norm_num, ?_, ?_⟩ <;> dsimp only <;> omega
                  · by_cases b11 : doy < yearLen y - 88
                    · rw [resolve_at_10 y doy hc1 hc2 hk1 hk2 hsum_lo (by omega) b11]
                      refine ⟨rfl, rfl, by norm_num, by norm_num, ?_, ?_⟩ <;> dsimp only <;> omega
                    · by_cases b12 : doy < yearLen y - 59
                      · rw [resolve_at_11 y doy hc1 hc2 hk1 hk2 hsum_lo (by omega) b12]
                        refine ⟨rfl, rfl, by norm_num, by norm_num, ?_, ?_⟩ <;> dsimp only <;> omega
                      · by_cases b13 : doy < yearLen y - 29
                        · rw [resolve_at_12 y doy hc1 hc2 hk1 hk2 hsum_lo (by omega) b13]
                          refine ⟨rfl, rfl, by norm_num, by norm_num, ?_, ?_⟩ <;> dsimp only <;> omega
                        · rw [resolve_at_13 y doy hc1 hc2 hk1 hk2 hsum_lo (by omega) h1]
                          refine ⟨rfl, rfl, by norm_num, by norm_num, ?_, ?_⟩ <;> dsimp only <;> omega

/-- Round trip at the closed-form SDN of a valid date: converting the SDN of
day `d` of month `mo` of year `y` back yields the same date.  Month 6 is
required to be in a leap year; every other month only needs its day to lie
within the month's true length. -/
theorem round_trip_aux (y mo d : Int) (hy : 1 ≤ y) (hmo1 : 1 ≤ mo) (hmo13 : mo ≤ 13)
    (hadar : mo = 6 → is_leap_year y = true)
    (hd1 : 1 ≤ d) (hdlen : d ≤ monthLen y mo) :
    JewishDate.from_sdn (tishrei1Day y + monthStartDoy y mo + d - 1 + JEWISH_SDN_OFFSET) =
      .ok { year := y, month := mo, day := d, isLeapYear := is_leap_year y } := by
  obtain ⟨hc1, hc2, hk1, hk2, hnl, hlp⟩ := month_sum y
  have hylb := yearLen_bounds y
  have hyl : (353 : Int) ≤ yearLen y ∧ yearLen y ≤ 385 := by
    cases hb : is_leap_year y
    · have := hylb.1 hb; omega
    · have := hylb.2 hb; omega
  have hsum_lo : cheshvanLen y + kislevLen y + 295 ≤ yearLen y := by
    cases hb : is_leap_year y
    · have := hnl hb; omega
    · have := hlp hb; omega
  have hsum_hi : yearLen y ≤ cheshvanLen y + kislevLen y + 325 := by
    cases hb : is_leap_year y
    · have := hnl hb; omega
    · have := hlp hb; omega
  have hylen_def : yearLen y = tishrei1Day (y + 1) - tishrei1Day y := rfl
  interval_cases mo
  · have hmsv : monthStartDoy y 1 = 0 := by norm_num [monthStartDoy]
    have hmlv : monthLen y 1 = 30 := by norm_num [monthLen]
    rw [from_sdn_master y (tishrei1Day y + monthStartDoy y 1 + d - 1) hy (by omega)
      (by omega)]
    rw [show tishrei1Day y + monthStartDoy y 1 + d - 1 - tishrei1Day y =
      monthStartDoy y 1 + d - 1 from by ring]
    rw [resolve_at_1 y (monthStartDoy y 1 + d - 1) (by omega) (by omega)]
    simp only [Except.ok.injEq, JewishDate.mk.injEq, eq_self_iff_true, and_true, true_and]
    omega
  · have hmsv : monthStartDoy y 2 = 30 := by norm_num [monthStartDoy]
    have hmlv : monthLen y 2 = cheshvanLen y := by norm_num [monthLen]
    rw [from_sdn_master y (tishrei1Day y + monthStartDoy y 2 + d - 1) hy (by omega)
      (by omega)]
    rw [show tishrei1Day y + monthStartDoy y 2 + d - 1 - tishrei1Day y =
      monthStartDoy y 2 + d - 1 from by ring]
    rw [resolve_at_2 y (monthStartDoy y 2 + d - 1) (by omega) (by omega)]
    simp only [Except.ok.injEq, JewishDate.mk.injEq, eq_self_iff_true, and_true, true_and]
    omega
  · have hmsv : monthStartDoy y 3 = 30 + cheshvanLen y := by norm_num [monthStartDoy]
    have hmlv : monthLen y 3 = kislevLen y := by norm_num [monthLen]
    rw [from_sdn_master y (tishrei1Day y + monthStartDoy y 3 + d - 1) hy (by omega)
      (by omega)]
    rw [show tishrei1Day y + monthStartDoy y 3 + d - 1 - tishrei1Day y =
      monthStartDoy y 3 + d - 1 from by ring]
    rw [resolve_at_3 y (monthStartDoy y 3 + d - 1) hc1 (by omega) (by omega)]
    simp only [Except.ok.injEq, JewishDate.mk.injEq, eq_self_iff_true, and_true, true_and]
    omega
  · have hmsv : monthStartDoy y 4 = 30 + cheshvanLen y + kislevLen y := by norm_num [monthStartDoy]
    have hmlv : monthLen y 4 = 29 := by norm_num [monthLen]
    rw [from_sdn_master y (tishrei1Day y + monthStartDoy y 4 + d - 1) hy (by omega)
      (by omega)]
    rw [show tishrei1Day y + monthStartDoy y 4 + d - 1 - tishrei1Day y =
      monthStartDoy y 4 + d - 1 from by ring]
    rw [resolve_at_4 y (monthStartDoy y 4 + d - 1) hc1 hc2 hk1 hk2 (by omega) (by omega)]
    simp only [Except.ok.injEq, JewishDate.mk.injEq, eq_self_iff_true, and_true, true_and]
    omega
  · have hmsv : monthStartDoy y 5 = 30 + cheshvanLen y + kislevLen y + 29 := by norm_num [monthStartDoy]
    have hmlv : monthLen y 5 = 30 := by norm_num [monthLen]
    rw [from_sdn_master y (tishrei1Day y + monthStartDoy y 5 + d - 1) hy (by omega)
      (by omega)]
    rw [show tishrei1Day y + monthStartDoy y 5 + d - 1 - tishrei1Day y =
      monthStartDoy y 5 + d - 1 from by ring]
    rw [resolve_at_5 y (monthStartDoy y 5 + d - 1) hc1 hc2 hk1 hk2 (by omega) (by omega)]
    simp only [Except.ok.injEq, JewishDate.mk.injEq, eq_self_iff_true, and_true, true_and]
    omega
  · have hmsv : monthStartDoy y 6 = 30 + cheshvanLen y + kislevLen y + 59 := by norm_num [monthStartDoy]
    have hmlv : monthLen y 6 = 30 := by norm_num [monthLen]
    have hlp2 := hlp (hadar rfl)
    rw [from_sdn_master y (tishrei1Day y + monthStartDoy y 6 + d - 1) hy (by omega)
      (by omega)]
    rw [show tishrei1Day y + monthStartDoy y 6 + d - 1 - tishrei1Day y =
      monthStartDoy y 6 + d - 1 from by ring]
    rw [resolve_at_6 y (monthStartDoy y 6 + d - 1) hc1 hc2 hk1 hk2 hsum_lo (by omega) (by omega)]
    simp only [Except.ok.injEq, JewishDate.mk.injEq, eq_self_iff_true, and_true, true_and]
    omega
  · have hmsv : monthStartDoy y 7 = yearLen y - 206 := by norm_num [monthStartDoy]
    have hmlv : monthLen y 7 = 29 := by norm_num [monthLen]
    rw [from_sdn_master y (tishrei1Day y + monthStartDoy y 7 + d - 1) hy (by omega)
      (by omega)]
    rw [show tishrei1Day y + monthStartDoy y 7 + d - 1 - tishrei1Day y =
      monthStartDoy y 7 + d - 1 from by ring]
    rw [resolve_at_7 y (monthStartDoy y 7 + d - 1) hc1 hc2 hk1 hk2 hsum_lo (by omega) (by omega)]
    simp only [Except.ok.injEq, JewishDate.mk.injEq, eq_self_iff_true, and_true, true_and]
    omega
  · have hmsv : monthStartDoy y 8 = yearLen y - 177 := by norm_num [monthStartDoy]
    have hmlv : monthLen y 8 = 30 := by norm_num [monthLen]
    rw [from_sdn_master y (tishrei1Day y + monthStartDoy y 8 + d - 1) hy (by omega)
      (by omega)]
    rw [show tishrei1Day y + monthStartDoy y 8 + d - 1 - tishrei1Day y =
      monthStartDoy y 8 + d - 1 from by ring]
    rw [resolve_at_8 y (monthStartDoy y 8 + d - 1) hc1 hc2 hk1 hk2 hsum_lo (by omega) (by omega)]
    simp only [Except.ok.injEq, JewishDate.mk.injEq, eq_self_iff_true, and_true, true_and]
    omega
  · have hmsv : monthStartDoy y 9 = yearLen y - 147 := by norm_num [monthStartDoy]
    have hmlv : monthLen y 9 = 29 := by norm_num [monthLen]
    rw [from_sdn_master y (tishrei1Day y + monthStartDoy y 9 + d - 1) hy (by omega)
      (by omega)]
    rw [show tishrei1Day y + monthStartDoy y 9 + d - 1 - tishrei1Day y =
      monthStartDoy y 9 + d - 1 from by ring]
    rw [resolve_at_9 y (monthStartDoy y 9 + d - 1) hc1 hc2 hk1 hk2 hsum_lo (by omega) (by omega)]
    simp only [Except.ok.injEq, JewishDate.mk.injEq, eq_self_iff_true, and_true, true_and]
    omega
  · have hmsv : monthStartDoy y 10 = yearLen y - 118 := by norm_num [monthStartDoy]
    have hmlv : monthLen y 10 = 30 := by norm_num [monthLen]
    rw [from_sdn_master y (tishrei1Day y + monthStartDoy y 10 + d - 1) hy (by omega)
      (by omega)]
    rw [show tishrei1Day y + monthStartDoy y 10 + d - 1 - tishrei1Day y =
      monthStartDoy y 10 + d - 1 from by ring]
    rw [resolve_at_10 y (monthStartDoy y 10 + d - 1) hc1 hc2 hk1 hk2 hsum_lo (by omega) (by omega)]
    simp only [Except.ok.injEq, JewishDate.mk.injEq, eq_self_iff_true, and_true, true_and]
    omega
  · have hmsv : monthStartDoy y 11 = yearLen y - 88 := by norm_num [monthStartDoy]
    have hmlv : monthLen y 11 = 29 := by norm_num [monthLen]
    rw [from_sdn_master y (tishrei1Day y + monthStartDoy y 11 + d - 1) hy (by omega)
      (by omega)]
    rw [show tishrei1Day y + monthStartDoy y 11 + d - 1 - tishrei1Day y =
      monthStartDoy y 11 + d - 1 from by ring]
    rw [resolve_at_11 y (monthStartDoy y 11 + d - 1) hc1 hc2 hk1 hk2 hsum_lo (by omega) (by omega)]
    simp only [Except.ok.injEq, JewishDate.mk.injEq, eq_self_iff_true, and_true, true_and]
    omega
  · have hmsv : monthStartDoy y 12 = yearLen y - 59 := by norm_num [monthStartDoy]
    have hmlv : monthLen y 12 = 30 := by norm_num [monthLen]
    rw [from_sdn_master y (tishrei1Day y + monthStartDoy y 12 + d - 1) hy (by omega)
      (by omega)]
    rw [show tishrei1Day y + monthStartDoy y 12 + d - 1 - tishrei1Day y =
      monthStartDoy y 12 + d - 1 from by ring]
    rw [resolve_at_12 y (monthStartDoy y 12 + d - 1) hc1 hc2 hk1 hk2 hsum_lo (by omega) (by omega)]
    simp only [Except.ok.injEq, JewishDate.mk.injEq, eq_self_iff_true, and_true, true_and]
    omega
  · have hmsv : monthStartDoy y 13 = yearLen y - 29 := by norm_num [monthStartDoy]
    have hmlv : monthLen y 13 = 29 := by norm_num [monthLen]
    rw [from_sdn_master y (tishrei1Day y + monthStartDoy y 13 + d - 1) hy (by omega)
      (by omega)]
    rw [show tishrei1Day y + monthStartDoy y 13 + d - 1 - tishrei1Day y =
      monthStartDoy y 13 + d - 1 from by ring]
    rw [resolve_at_13 y (monthStartDoy y 13 + d - 1) hc1 hc2 hk1 hk2 hsum_lo (by omega) (by omega)]
    simp only [Except.ok.injEq, JewishDate.mk.injEq, eq_self_iff_true, and_true, true_and]
    omega

/-- Bounds on month lengths. -/
theorem monthLen_bounds (y mo : Int) (h1 : 1 ≤ mo) (h2 : mo ≤ 13) :
    29 ≤ monthLen y mo ∧ monthLen y mo ≤ 30 := by
  obtain ⟨hc1, hc2, hk1, hk2, hnl, hlp⟩ := month_sum y
  interval_cases mo <;> norm_num [monthLen] <;> omega

/-- Month starts are nonnegative. -/
theorem monthStart_nonneg (y mo : Int) (h1 : 1 ≤ mo) (h2 : mo ≤ 13) :
    0 ≤ monthStartDoy y mo := by
  obtain ⟨hc1, hc2, hk1, hk2, hnl, hlp⟩ := month_sum y
  have hylb := yearLen_bounds y
  have hyl : (353 : Int) ≤ yearLen y ∧ yearLen y ≤ 385 := by
    cases hb : is_leap_year y
    · have := hylb.1 hb; omega
    · have := hylb.2 hb; omega
  interval_cases mo <;> norm_num [monthStartDoy] <;> omega

/-- A month ends no later than the end of its year. -/
theorem month_end_le (y mo : Int) (h1 : 1 ≤ mo) (h2 : mo ≤ 13)
    (hadar : mo = 6 → is_leap_year y = true) :
    monthStartDoy y mo + monthLen y mo ≤ yearLen y := by
  obtain ⟨hc1, hc2, hk1, hk2, hnl, hlp⟩ := month_sum y
  have hylb := yearLen_bounds y
  have hyl : (353 : Int) ≤ yearLen y ∧ yearLen y ≤ 385 := by
    cases hb : is_leap_year y
    · have := hylb.1 hb; omega
    · have := hylb.2 hb; omega
  have hsum_lo : cheshvanLen y + kislevLen y + 295 ≤ yearLen y := by
    cases hb : is_leap_year y
    · have := hnl hb; omega
    · have := hlp hb; omega
  by_cases h6 : mo = 6
  · have := hlp (hadar h6)
    subst h6
    norm_num [monthStartDoy, monthLen]
    omega
  · interval_cases mo <;> norm_num [monthStartDoy, monthLen] <;> omega

/-- Each month ends no later than the start of the next month slot. -/
theorem monthStart_len_le (y mo : Int) (h1 : 1 ≤ mo) (h2 : mo ≤ 12)
    (hadar : mo = 6 → is_leap_year y = true) :
    monthStartDoy y mo + monthLen y mo ≤ monthStartDoy y (mo + 1) := by
  obtain ⟨hc1, hc2, hk1, hk2, hnl, hlp⟩ := month_sum y
  have hsum_lo : cheshvanLen y + kislevLen y + 295 ≤ yearLen y := by
    cases hb : is_leap_year y
    · have := hnl hb; omega
    · have := hlp hb; omega
  by_cases h6 : mo = 6
  · have := hlp (hadar h6)
    subst h6
    norm_num [monthStartDoy, monthLen]
    omega
  · interval_cases mo <;> norm_num [monthStartDoy, monthLen] <;> omega

/-- Month start positions never decrease with the month number. -/
theorem monthStart_weak_step (y mo : Int) (h1 : 1 ≤ mo) (h2 : mo ≤ 12) :
    monthStartDoy y mo ≤ monthStartDoy y (mo + 1) := by
  obtain ⟨hc1, hc2, hk1, hk2, hnl, hlp⟩ := month_sum y
  have hsum_lo : cheshvanLen y + kislevLen y + 295 ≤ yearLen y := by
    cases hb : is_leap_year y
    · have := hnl hb; omega
    · have := hlp hb; omega
  interval_cases mo <;> norm_num [monthStartDoy] <;> omega

theorem monthStart_weak_mono (y a : Int) (ha : 1 ≤ a) :
    ∀ n : Nat, a + n ≤ 13 → monthStartDoy y a ≤ monthStartDoy y (a + n) := by
  intro n
  induction n with
  | zero =>
    intro _
    simp
  | succ k ih =>
    intro h13
    have hk13 : a + (k : Int) ≤ 12 := by push_cast at h13; omega
    have hstep := monthStart_weak_step y (a + (k : Int)) (by omega) hk13
    have hih := ih (by push_cast at h13 ⊢; omega)
    have harg : a + ((k + 1 : Nat) : Int) = a + (k : Int) + 1 := by push_cast; ring
    rw [harg]
    exact le_trans hih hstep

/-- Dehiyyot rule 1 guarantee: the resolver output is never congruent to
Sunday, Wednesday or Friday modulo 7, whatever the leap flags. -/
theorem dehiyyot_not_adu (n l : Bool) (day hal : Int) :
    dehiyyot n l day hal % 7 ≠ 0 ∧ dehiyyot n l day hal % 7 ≠ 3 ∧
      dehiyyot n l day hal % 7 ≠ 5 := by
  cases n <;> cases l <;>
    simp only [dehiyyot, NOON, AM3_11_20, AM9_32_43, HALAKIM_PER_HOUR,
      SUNDAY, MONDAY, TUESDAY, WEDNESDAY, FRIDAY,
      Bool.false_and, Bool.and_false, Bool.true_and, Bool.and_true,
      Bool.or_false, Bool.false_or, Bool.true_or, Bool.or_true,
      Bool.not_true, Bool.not_false, Bool.or_eq_true, Bool.and_eq_true,
      decide_eq_true_eq] <;>
    norm_num <;>
    split_ifs <;> omega

theorem tishrei1Day_not_adu (y : Int) :
    tishrei1Day y % 7 ≠ SUNDAY ∧ tishrei1Day y % 7 ≠ WEDNESDAY ∧
      tishrei1Day y % 7 ≠ FRIDAY := by
  have h := dehiyyot_not_adu (!(LEAP_YEARS.contains ((y - 1) % 19)))
    (LEAP_YEARS.contains (((y - 1) % 19 - 1) % 19)) (moladOfYear y).day (moladOfYear y).halakim
  have he : tishrei1Day y = dehiyyot (!(LEAP_YEARS.contains ((y - 1) % 19)))
      (LEAP_YEARS.contains (((y - 1) % 19 - 1) % 19)) (moladOfYear y).day
      (moladOfYear y).halakim := gfd_eq_dehiyyot ((y - 1) % 19) (moladOfYear y)
  rw [he]
  simpa only [SUNDAY, WEDNESDAY, FRIDAY] using h

/-! The claims. -/

/-- Claim C1: for every Jewish date (year, month, day) that `__init__`
accepts and whose day does not exceed the true length of that month in that
year (with month 6 present only in leap years), `to_sdn` succeeds and
`from_sdn` of the result returns the original date. -/
theorem C1_round_trip (y mo d : Int) (hy : 1 ≤ y) (hmo1 : 1 ≤ mo) (hmo13 : mo ≤ 13)
    (hadar : mo = 6 → is_leap_year y = true)
    (hd1 : 1 ≤ d) (hdlen : d ≤ monthLen y mo) :
    ∃ (dt : JewishDate) (sdn : Int),
      JewishDate.make y mo d = .ok dt ∧ dt.to_sdn = .ok sdn ∧
        JewishDate.from_sdn sdn = .ok dt := by
  have hd30 : d ≤ 30 := le_trans hdlen (monthLen_bounds y mo hmo1 hmo13).2
  exact ⟨{ year := y, month := mo, day := d, isLeapYear := is_leap_year y },
    tishrei1Day y + monthStartDoy y mo + d - 1 + JEWISH_SDN_OFFSET,
    make_ok y mo d hy hmo1 hmo13 hd1 hd30,
    to_sdn_spec y mo d hy hmo1 hmo13 hd1 hd30,
    round_trip_aux y mo d hy hmo1 hmo13 hadar hd1 hdlen⟩

theorem C1_round_trip_witness :
    ∃ (dt : JewishDate) (sdn : Int),
      JewishDate.make 5774 1 1 = .ok dt ∧ dt.to_sdn = .ok sdn ∧
        JewishDate.from_sdn sdn = .ok dt :=
  C1_round_trip 5774 1 1 (by norm_num) (by norm_num) (by norm_num)
    (by intro h; exact absurd h (by norm_num)) (by norm_num) (by decide)

/-- Claim C2: `from_sdn` at the epoch offset 347997 reports a domain error,
and at offset + 1 it returns Jewish year 1, Tishrei (month 1), day 1. -/
theorem C2_epoch_boundary :
    JEWISH_SDN_OFFSET = 347997 ∧
      JewishDate.from_sdn JEWISH_SDN_OFFSET = .error .invalidDate ∧
      JewishDate.from_sdn (JEWISH_SDN_OFFSET + 1) =
        .ok { year := 1, month := 1, day := 1, isLeapYear := false } := by
  refine ⟨rfl, rfl, ?_⟩
  have hm := from_sdn_master 1 1 le_rfl (by decide) (by decide)
  have hres : resolve 1 (1 - tishrei1Day 1) =
      { year := 1, month := 1, day := 1, isLeapYear := false } := by decide
  rw [hres] at hm
  rw [show JEWISH_SDN_OFFSET + 1 = 1 + JEWISH_SDN_OFFSET from by ring]
  exact hm

/-- Claim C3: for every year ≥ 1, the SDN of Tishrei 1 (produced by `to_sdn`
on (year, 1, 1)) is never congruent mod 7 to Sunday, Wednesday or Friday. -/
theorem C3_lo_adu_rosh (year : Int) (hy : 1 ≤ year) :
    ∃ (dt : JewishDate) (s : Int),
      JewishDate.make year 1 1 = .ok dt ∧ dt.to_sdn = .ok s ∧
        (s - JEWISH_SDN_OFFSET) % 7 ≠ SUNDAY ∧
        (s - JEWISH_SDN_OFFSET) % 7 ≠ WEDNESDAY ∧
        (s - JEWISH_SDN_OFFSET) % 7 ≠ FRIDAY := by
  obtain ⟨h1, h2, h3⟩ := tishrei1Day_not_adu year
  have harg : tishrei1Day year + monthStartDoy year 1 + 1 - 1 + JEWISH_SDN_OFFSET -
      JEWISH_SDN_OFFSET = tishrei1Day year := by
    have hms : monthStartDoy year 1 = 0 := by norm_num [monthStartDoy]
    rw [hms]
    ring
  refine ⟨{ year := year, month := 1, day := 1, isLeapYear := is_leap_year year },
    tishrei1Day year + monthStartDoy year 1 + 1 - 1 + JEWISH_SDN_OFFSET,
    make_ok year 1 1 hy (by norm_num) (by norm_num) (by norm_num) (by norm_num),
    to_sdn_spec year 1 1 hy (by norm_num) (by norm_num) (by norm_num) (by norm_num),
    ?_, ?_, ?_⟩ <;> rw [harg]
  · exact h1
  · exact h2
  · exact h3

theorem C3_lo_adu_rosh_witness :
    ∃ (dt : JewishDate) (s : Int),
      JewishDate.make 5774 1 1 = .ok dt ∧ dt.to_sdn = .ok s ∧
        (s - JEWISH_SDN_OFFSET) % 7 ≠ SUNDAY ∧
        (s - JEWISH_SDN_OFFSET) % 7 ≠ WEDNESDAY ∧
        (s - JEWISH_SDN_OFFSET) % 7 ≠ FRIDAY :=
  C3_lo_adu_rosh 5774 (by norm_num)

/-- Claim C4: for any two valid Jewish dates with the first chronologically
before the second, `to_sdn` of the first is strictly below `to_sdn` of the
second. -/
theorem C4_to_sdn_monotone (y1 mo1 d1 y2 mo2 d2 : Int)
    (hy1 : 1 ≤ y1) (hm11 : 1 ≤ mo1) (hm13 : mo1 ≤ 13)
    (hadar1 : mo1 = 6 → is_leap_year y1 = true)
    (hd11 : 1 ≤ d1) (hdl1 : d1 ≤ monthLen y1 mo1)
    (hy2 : 1 ≤ y2) (hm21 : 1 ≤ mo2) (hm23 : mo2 ≤ 13)
    (hadar2 : mo2 = 6 → is_leap_year y2 = true)
    (hd21 : 1 ≤ d2) (hdl2 : d2 ≤ monthLen y2 mo2)
    (hbefore : y1 < y2 ∨ (y1 = y2 ∧ (mo1 < mo2 ∨ (mo1 = mo2 ∧ d1 < d2)))) :
    ∃ s1 s2 : Int,
      JewishDate.to_sdn { year := y1, month := mo1, day := d1, isLeapYear := is_leap_year y1 } = .ok s1 ∧
      JewishDate.to_sdn { year := y2, month := mo2, day := d2, isLeapYear := is_leap_year y2 } = .ok s2 ∧
      s1 < s2 := by
  have hd130 : d1 ≤ 30 := le_trans hdl1 (monthLen_bounds y1 mo1 hm11 hm13).2
  have hd230 : d2 ≤ 30 := le_trans hdl2 (monthLen_bounds y2 mo2 hm21 hm23).2
  refine ⟨_, _, to_sdn_spec y1 mo1 d1 hy1 hm11 hm13 hd11 hd130,
    to_sdn_spec y2 mo2 d2 hy2 hm21 hm23 hd21 hd230, ?_⟩
  rcases hbefore with hyy | ⟨rfl, hmm | ⟨rfl, hdd⟩⟩
  · have hend := month_end_le y1 mo1 hm11 hm13 hadar1
    have hnn := monthStart_nonneg y2 mo2 hm21 hm23
    have hT := tishrei1Day_mono (y1 + 1) y2 (by omega)
    have hylen : yearLen y1 = tishrei1Day (y1 + 1) - tishrei1Day y1 := rfl
    omega
  · have hstep := monthStart_len_le y1 mo1 hm11 (by omega) hadar1
    have hmono := monthStart_weak_mono y1 (mo1 + 1) (by omega)
      (mo2 - (mo1 + 1)).toNat (by omega)
    have harg : mo1 + 1 + (((mo2 - (mo1 + 1)).toNat : Nat) : Int) = mo2 := by omega
    rw [harg] at hmono
    omega
  · omega

theorem C4_to_sdn_monotone_witness :
    ∃ s1 s2 : Int,
      JewishDate.to_sdn { year := 5774, month := 1, day := 1, isLeapYear := is_leap_year 5774 } = .ok s1 ∧
      JewishDate.to_sdn { year := 5774, month := 1, day := 2, isLeapYear := is_leap_year 5774 } = .ok s2 ∧
      s1 < s2 :=
  C4_to_sdn_monotone 5774 1 1 5774 1 2 (by norm_num) (by norm_num) (by norm_num)
    (by intro h; exact absurd h (by norm_num)) (by norm_num) (by decide)
    (by norm_num) (by norm_num) (by norm_num)
    (by intro h; exact absurd h (by norm_num)) (by norm_num) (by decide)
    (Or.inr ⟨rfl, Or.inr ⟨rfl, by norm_num⟩⟩)

/-- Claim C5: in any 19 consecutive years exactly 7 are leap, and
`is_leap_year` holds exactly at metonic positions {2, 5, 7, 10, 13, 16, 18}
(position = (year - 1) mod 19). -/
theorem C5_leap_cycle (y : Int) :
    ((List.range 19).filter (fun i => is_leap_year (y + (i : Int)))).length = 7 ∧
      (∀ z : Int, is_leap_year z = true ↔
        ((z - 1) % 19 = 2 ∨ (z - 1) % 19 = 5 ∨ (z - 1) % 19 = 7 ∨ (z - 1) % 19 = 10 ∨
          (z - 1) % 19 = 13 ∨ (z - 1) % 19 = 16 ∨ (z - 1) % 19 = 18)) := by
  constructor
  · have hcong : ((List.range 19).filter (fun i => is_leap_year (y + (i : Int)))) =
        ((List.range 19).filter
          (fun i => LEAP_YEARS.contains (((y - 1) % 19 + (i : Int)) % 19))) := by
      apply List.filter_congr
      intro i _
      show LEAP_YEARS.contains ((y + (i : Int) - 1) % 19) =
        LEAP_YEARS.contains (((y - 1) % 19 + (i : Int)) % 19)
      have harg : (y + (i : Int) - 1) % 19 = ((y - 1) % 19 + (i : Int)) % 19 := by omega
      rw [harg]
    rw [hcong]
    obtain ⟨r, hr, hr0, hr1⟩ : ∃ r, (y - 1) % 19 = r ∧ 0 ≤ r ∧ r < 19 :=
      ⟨(y - 1) % 19, rfl, by omega, by omega⟩
    rw [hr]
    interval_cases r <;> decide
  · intro z
    show LEAP_YEARS.contains ((z - 1) % 19) = true ↔ _
    obtain ⟨r, hr, hr0, hr1⟩ : ∃ r, (z - 1) % 19 = r ∧ 0 ≤ r ∧ r < 19 :=
      ⟨(z - 1) % 19, rfl, by omega, by omega⟩
    rw [hr]
    interval_cases r <;> decide

/-- Modelled from the spec: the external Gregorian collaborator
(`datetime.date.toordinal`) is outside this repository; the proleptic
Gregorian day ordinal bridges to SDN via the fixed offset 1721425. -/
def gregorian_ordinal (y m d : Int) : Int :=
  let daysBefore : Int :=
    if m = 1 then 0 else if m = 2 then 31 else if m = 3 then 59 else if m = 4 then 90
    else if m = 5 then 120 else if m = 6 then 151 else if m = 7 then 181
    else if m = 8 then 212 else if m = 9 then 243 else if m = 10 then 273
    else if m = 11 then 304 else 334
  let leap : Int := if (y % 4 = 0 ∧ y % 100 ≠ 0) ∨ y % 400 = 0 then 1 else 0
  365 * (y - 1) + (y - 1) / 4 - (y - 1) / 100 + (y - 1) / 400 +
    daysBefore + (if 2 < m then leap else 0) + d

/-- Claim C6: `to_sdn` of (5774, 1, 1) equals 2456541, the SDN of the
Gregorian date 5 September 2013, and `from_sdn 2456541` reproduces
(5774, 1, 1). -/
theorem C6_reference_date :
    ∃ dt : JewishDate,
      JewishDate.make 5774 1 1 = .ok dt ∧
      dt.to_sdn = .ok 2456541 ∧
      JewishDate.from_sdn 2456541 = .ok dt ∧
      gregorian_ordinal 2013 9 5 + GREGORIAN_SDN_OFFSET = 2456541 := by
  refine ⟨{ year := 5774, month := 1, day := 1, isLeapYear := true }, ?_, ?_, ?_, ?_⟩
  · decide
  · decide
  · have hm := from_sdn_master 5774 2108544 (by norm_num) (by decide) (by decide)
    have hres : resolve 5774 (2108544 - tishrei1Day 5774) =
        { year := 5774, month := 1, day := 1, isLeapYear := true } := by decide
    rw [hres] at hm
    rw [show (2456541 : Int) = 2108544 + JEWISH_SDN_OFFSET from by norm_num [JEWISH_SDN_OFFSET]]
    exact hm
  · decide

/-- Claim C7, counterexample: month 6 (Adar I) in the common year 5775 is
accepted by `__init__` and `to_sdn` returns an SDN instead of raising a
domain error. -/
theorem C7_counterexample :
    is_leap_year 5775 = false ∧
      JewishDate.make 5775 6 1 =
        .ok { year := 5775, month := 6, day := 1, isLeapYear := false } ∧
      JewishDate.to_sdn { year := 5775, month := 6, day := 1, isLeapYear := false } =
        .ok 2457074 := by
  refine ⟨by decide, by decide, by decide⟩

/-- Claim C7, amended behaviour: for month 6 in a common year `to_sdn` does
not fail; it returns the same SDN as month 7 (Adar II) of that year, because
the offset table always carries the Adar I key. -/
theorem C7_amended (y d : Int) (hy : 1 ≤ y) (hnl : is_leap_year y = false)
    (hd1 : 1 ≤ d) (hd30 : d ≤ 30) :
    ∃ s : Int,
      JewishDate.to_sdn { year := y, month := 6, day := d, isLeapYear := is_leap_year y } = .ok s ∧
      JewishDate.to_sdn { year := y, month := 7, day := d, isLeapYear := is_leap_year y } = .ok s := by
  obtain ⟨hc1, hc2, hk1, hk2, hnlsum, hlp⟩ := month_sum y
  have hsum := hnlsum hnl
  have h6 := to_sdn_spec y 6 d hy (by norm_num) (by norm_num) hd1 hd30
  have h7 := to_sdn_spec y 7 d hy (by norm_num) (by norm_num) hd1 hd30
  have heq : monthStartDoy y 6 = monthStartDoy y 7 := by
    norm_num [monthStartDoy]
    omega
  refine ⟨_, ?_, h7⟩
  rw [h6, heq]

theorem C7_amended_witness :
    ∃ s : Int,
      JewishDate.to_sdn { year := 5775, month := 6, day := 1, isLeapYear := is_leap_year 5775 } = .ok s ∧
      JewishDate.to_sdn { year := 5775, month := 7, day := 1, isLeapYear := is_leap_year 5775 } = .ok s :=
  C7_amended 5775 1 (by norm_num) (by decide) (by norm_num) (by norm_num)

/-- Claim C8: `english_month_name` on month 7 returns "Adar II" regardless of
the leap flag — in particular it returns "Adar II", not plain "Adar", when
`isLeapYear` is false, because the dedicated non-leap branch returns the same
string as the table entry it shadows. -/
theorem C8_adar_naming (d : JewishDate) (h7 : d.month = 7) :
    d.english_month_name = "Adar II" := by
  obtain ⟨y, mo, dd, lp⟩ := d
  dsimp only [JewishDate.english_month_name] at h7 ⊢
  subst h7
  cases lp <;> decide

theorem C8_adar_naming_witness :
    JewishDate.english_month_name
      { year := 5775, month := 7, day := 1, isLeapYear := false } = "Adar II" :=
  C8_adar_naming { year := 5775, month := 7, day := 1, isLeapYear := false } rfl

/-- Claim C9: `add_halakim` re-normalizes with floor-division semantics —
afterwards `0 ≤ halakim < HALAKIM_PER_DAY` and the total moment in halakim
(day·HALAKIM_PER_DAY + halakim) grows by exactly the increment — and the
same invariant holds for `add_lunar_cycles` and `add_metonic_cycles`. -/
theorem C9_molad_invariants (m : Molad) (units n k : Int) :
    (0 ≤ (m.add_halakim units).halakim ∧ (m.add_halakim units).halakim < HALAKIM_PER_DAY ∧
      (m.add_halakim units).day * HALAKIM_PER_DAY + (m.add_halakim units).halakim =
        m.day * HALAKIM_PER_DAY + m.halakim + units) ∧
    (0 ≤ (m.add_lunar_cycles n).halakim ∧
      (m.add_lunar_cycles n).halakim < HALAKIM_PER_DAY ∧
      (m.add_lunar_cycles n).day * HALAKIM_PER_DAY + (m.add_lunar_cycles n).halakim =
        m.day * HALAKIM_PER_DAY + m.halakim + HALAKIM_PER_LUNAR_CYCLE * n) ∧
    (0 ≤ (m.add_metonic_cycles k).halakim ∧
      (m.add_metonic_cycles k).halakim < HALAKIM_PER_DAY ∧
      (m.add_metonic_cycles k).day * HALAKIM_PER_DAY + (m.add_metonic_cycles k).halakim =
        m.day * HALAKIM_PER_DAY + m.halakim + HALAKIM_PER_METONIC_CYCLE * k) := by
  obtain ⟨h1, h2⟩ := Molad.add_halakim_total m units
  obtain ⟨h3, h4⟩ := Molad.add_halakim_total m (HALAKIM_PER_LUNAR_CYCLE * n)
  obtain ⟨h5, h6⟩ := Molad.add_halakim_total m (HALAKIM_PER_METONIC_CYCLE * k)
  obtain ⟨h2a, h2b⟩ := h2
  obtain ⟨h4a, h4b⟩ := h4
  obtain ⟨h6a, h6b⟩ := h6
  simp only [Molad.total] at h1 h3 h5
  exact ⟨⟨h2a, h2b, h1⟩, ⟨h4a, h4b, h3⟩, ⟨h6a, h6b, h5⟩⟩

/-- Claim C10: for every SDN strictly above the epoch offset, `from_sdn`
returns a structurally valid date: year ≥ 1, month in 1..13, day in 1..30,
so the final `JewishDate` construction never raises. -/
theorem C10_from_sdn_safe (sdn : Int) (h : JEWISH_SDN_OFFSET < sdn) :
    ∃ dt : JewishDate, JewishDate.from_sdn sdn = .ok dt ∧
      1 ≤ dt.year ∧ 1 ≤ dt.month ∧ dt.month ≤ 13 ∧ 1 ≤ dt.day ∧ dt.day ≤ 30 := by
  obtain ⟨Y, hY, hlo, hhi⟩ := trueYear_exists (sdn - JEWISH_SDN_OFFSET) (by omega)
  have hm := from_sdn_master Y (sdn - JEWISH_SDN_OFFSET) hY hlo hhi
  rw [show sdn - JEWISH_SDN_OFFSET + JEWISH_SDN_OFFSET = sdn from by ring] at hm
  have hylen : yearLen Y = tishrei1Day (Y + 1) - tishrei1Day Y := rfl
  obtain ⟨hby, hbl, hbm1, hbm2, hbd1, hbd2⟩ :=
    resolve_bounds Y (sdn - JEWISH_SDN_OFFSET - tishrei1Day Y) (by omega) (by omega)
  refine ⟨_, hm, ?_, hbm1, hbm2, hbd1, hbd2⟩
  rw [hby]
  exact hY

theorem C10_from_sdn_safe_witness :
    ∃ dt : JewishDate, JewishDate.from_sdn 2456541 = .ok dt ∧
      1 ≤ dt.year ∧ 1 ≤ dt.month ∧ dt.month ≤ 13 ∧ 1 ≤ dt.day ∧ dt.day ≤ 30 :=
  C10_from_sdn_safe 2456541 (by norm_num [JEWISH_SDN_OFFSET])

end Jewish
